import Mathlib

/-!
Verification of the `iso8583-core` message codec.

This file gives a shallow embedding, in Lean 4, of the core of the
`iso8583-core` Rust crate: the field specification tables (`field.rs`,
`spec.rs`), the tri-level presence bitmap (`bitmap_simd.rs`, which `lib.rs`
re-exports as `bitmap`, so it is the one the message codec uses), the
BCD encoder/decoder (`encoding.rs`), the MTI model (`mti.rs`), the message
parser and serializer (`message.rs`) and the required-field validator
(`validation.rs`).

Modelling conventions:
  * Rust byte buffers (`&[u8]`, `Vec<u8>`) are `List Nat`, each element a
    byte value.  Machine arithmetic that could overflow is made explicit.
  * A Rust `String` is represented by its UTF-8 byte sequence (`List Nat`);
    `str::from_utf8` becomes a UTF-8 validity check that returns the same
    bytes, which matches the Rust code because every string value produced
    by the parser is an exact copy of the checked input bytes.
  * Fallible Rust functions return `Except`.  Operations that can panic
    (slice indexing out of bounds, `Vec` indexing) run in
    `Except PError _` where `PError.panicked` marks a Rust panic; a
    function that never returns `PError.panicked` is panic-free and never
    reads outside its buffer.
  * Error payload strings carried by the Rust error enum are dropped; the
    error constructors and their numeric payloads (field numbers, lengths)
    are kept.
-/

namespace Iso8583

/-- Error kinds of `error.rs` (`ISO8583Error`), with message strings dropped
and numeric payloads kept. -/
inductive Err where
  | InvalidMTI
  | InvalidFieldNumber (n : Nat)
  | FieldNotPresent (n : Nat)
  | InvalidFieldValue (field : Nat)
  | FieldLengthMismatch (field expected actual : Nat)
  | InvalidBitmap
  | InvalidEncoding
  | MessageTooShort (expected actual : Nat)
  | LuhnCheckFailed
  | MissingRequiredField (n : Nat)
  | ParseError
  | EncodingError
  | ValidationError
  | InvalidMessageClass
  | InvalidMessageFunction
  | InvalidMessageOrigin
  | Custom
  deriving DecidableEq, Repr

/-- Outcome marker for code that can panic: either a typed `Err` (a Rust
`Err(...)` return) or `panicked` (a Rust panic, e.g. slice index out of
bounds). -/
inductive PError where
  | err (e : Err)
  | panicked
  deriving DecidableEq, Repr

/-- Rust slice operation `&bytes[s..t]`: panics unless `s ≤ t ≤ bytes.len()`. -/
def slice (bytes : List Nat) (s t : Nat) : Except PError (List Nat) :=
  if s ≤ t ∧ t ≤ bytes.length then .ok ((bytes.drop s).take (t - s))
  else .error .panicked

/-- `slice` succeeds whenever the Rust bounds conditions hold. -/
theorem slice_ok {bytes : List Nat} {s t : Nat} (h1 : s ≤ t) (h2 : t ≤ bytes.length) :
    slice bytes s t = .ok ((bytes.drop s).take (t - s)) := by
  simp [slice, h1, h2]

/-- Field data type (`field.rs` `FieldType`). -/
inductive FieldType where
  | Numeric
  | Alpha
  | AlphaNumeric
  | AlphaNumericSpecial
  | Binary
  | Track2
  | Track3
  deriving DecidableEq, Repr

/-- Field length specification (`field.rs` `FieldLength`). -/
inductive FieldLength where
  | Fixed (n : Nat)
  | LLVar (maxLen : Nat)
  | LLLVar (maxLen : Nat)
  deriving DecidableEq, Repr

/-- Field definition (`field.rs` `FieldDefinition`); the `name` and
`description` display strings are omitted. -/
structure FieldDefinition where
  number : Nat
  field_type : FieldType
  length : FieldLength
  deriving DecidableEq, Repr

/-- Entries 1 of the `get_field_definitions()` vector (split only to keep list literals small). -/
def fieldDefsPart1 : List FieldDefinition := [
  ⟨0, .Numeric, .Fixed 0⟩,
  ⟨1, .Binary, .Fixed 8⟩,
  ⟨2, .Numeric, .LLVar 19⟩,
  ⟨3, .Numeric, .Fixed 6⟩,
  ⟨4, .Numeric, .Fixed 12⟩,
  ⟨5, .Numeric, .Fixed 12⟩,
  ⟨6, .Numeric, .Fixed 12⟩,
  ⟨7, .Numeric, .Fixed 10⟩,
  ⟨8, .Numeric, .Fixed 8⟩,
  ⟨9, .Numeric, .Fixed 8⟩,
  ⟨10, .Numeric, .Fixed 8⟩,
  ⟨11, .Numeric, .Fixed 6⟩,
  ⟨12, .Numeric, .Fixed 6⟩,
  ⟨13, .Numeric, .Fixed 4⟩,
  ⟨14, .Numeric, .Fixed 4⟩,
  ⟨15, .Numeric, .Fixed 4⟩,
  ⟨16, .Numeric, .Fixed 4⟩,
  ⟨17, .Numeric, .Fixed 4⟩,
  ⟨18, .Numeric, .Fixed 4⟩,
  ⟨19, .Numeric, .Fixed 3⟩,
  ⟨20, .Numeric, .Fixed 3⟩,
  ⟨21, .Numeric, .Fixed 3⟩,
  ⟨22, .Numeric, .Fixed 3⟩,
  ⟨23, .Numeric, .Fixed 3⟩,
  ⟨24, .Numeric, .Fixed 3⟩,
  ⟨25, .Numeric, .Fixed 2⟩,
  ⟨26, .Numeric, .Fixed 2⟩,
  ⟨27, .Numeric, .Fixed 1⟩,
  ⟨28, .Numeric, .Fixed 8⟩,
  ⟨29, .Numeric, .Fixed 8⟩,
  ⟨30, .Numeric, .Fixed 8⟩,
  ⟨31, .Numeric, .Fixed 8⟩,
  ⟨32, .Numeric, .LLVar 11⟩,
  ⟨33, .Numeric, .LLVar 11⟩,
  ⟨34, .Numeric, .LLVar 28⟩,
  ⟨35, .Track2, .LLVar 37⟩,
  ⟨36, .Track3, .LLLVar 104⟩,
  ⟨37, .AlphaNumeric, .Fixed 12⟩,
  ⟨38, .AlphaNumeric, .Fixed 6⟩,
  ⟨39, .AlphaNumeric, .Fixed 2⟩,
  ⟨40, .AlphaNumeric, .Fixed 3⟩]

/-- Entries 2 of the `get_field_definitions()` vector (split only to keep list literals small). -/
def fieldDefsPart2 : List FieldDefinition := [
  ⟨41, .AlphaNumericSpecial, .Fixed 8⟩,
  ⟨42, .AlphaNumericSpecial, .Fixed 15⟩,
  ⟨43, .AlphaNumericSpecial, .Fixed 40⟩,
  ⟨44, .AlphaNumericSpecial, .LLVar 25⟩,
  ⟨45, .AlphaNumericSpecial, .LLVar 76⟩,
  ⟨46, .AlphaNumericSpecial, .LLLVar 999⟩,
  ⟨47, .AlphaNumericSpecial, .LLLVar 999⟩,
  ⟨48, .AlphaNumericSpecial, .LLLVar 999⟩,
  ⟨49, .AlphaNumeric, .Fixed 3⟩,
  ⟨50, .AlphaNumeric, .Fixed 3⟩,
  ⟨51, .AlphaNumeric, .Fixed 3⟩,
  ⟨52, .Binary, .Fixed 8⟩,
  ⟨53, .Numeric, .Fixed 16⟩,
  ⟨54, .AlphaNumericSpecial, .LLLVar 120⟩,
  ⟨55, .AlphaNumericSpecial, .LLLVar 999⟩,
  ⟨64, .Binary, .Fixed 8⟩,
  ⟨65, .Binary, .Fixed 8⟩,
  ⟨66, .Numeric, .Fixed 1⟩,
  ⟨67, .Numeric, .Fixed 2⟩,
  ⟨68, .Numeric, .Fixed 3⟩,
  ⟨69, .Numeric, .Fixed 3⟩,
  ⟨70, .Numeric, .Fixed 3⟩,
  ⟨71, .Numeric, .Fixed 4⟩,
  ⟨72, .Numeric, .Fixed 4⟩,
  ⟨73, .Numeric, .Fixed 6⟩,
  ⟨74, .Numeric, .Fixed 10⟩,
  ⟨75, .Numeric, .Fixed 10⟩,
  ⟨76, .Numeric, .Fixed 10⟩,
  ⟨77, .Numeric, .Fixed 10⟩,
  ⟨78, .Numeric, .Fixed 10⟩,
  ⟨79, .Numeric, .Fixed 10⟩,
  ⟨80, .Numeric, .Fixed 10⟩,
  ⟨81, .Numeric, .Fixed 10⟩,
  ⟨82, .Numeric, .Fixed 12⟩,
  ⟨83, .Numeric, .Fixed 12⟩,
  ⟨84, .Numeric, .Fixed 12⟩,
  ⟨85, .Numeric, .Fixed 12⟩,
  ⟨86, .Numeric, .Fixed 16⟩,
  ⟨87, .Numeric, .Fixed 16⟩,
  ⟨88, .Numeric, .Fixed 16⟩,
  ⟨89, .Numeric, .Fixed 16⟩]

/-- Entries 3 of the `get_field_definitions()` vector (split only to keep list literals small). -/
def fieldDefsPart3 : List FieldDefinition := [
  ⟨90, .Numeric, .Fixed 42⟩,
  ⟨91, .AlphaNumeric, .Fixed 1⟩,
  ⟨92, .AlphaNumeric, .Fixed 2⟩,
  ⟨93, .AlphaNumeric, .Fixed 5⟩,
  ⟨94, .AlphaNumeric, .Fixed 7⟩,
  ⟨95, .AlphaNumeric, .Fixed 42⟩,
  ⟨96, .Binary, .Fixed 8⟩,
  ⟨97, .Numeric, .Fixed 16⟩,
  ⟨98, .AlphaNumericSpecial, .Fixed 25⟩,
  ⟨99, .Numeric, .LLVar 11⟩,
  ⟨100, .Numeric, .LLVar 11⟩,
  ⟨101, .AlphaNumericSpecial, .LLVar 17⟩,
  ⟨102, .AlphaNumericSpecial, .LLVar 28⟩,
  ⟨103, .AlphaNumericSpecial, .LLVar 28⟩,
  ⟨104, .AlphaNumericSpecial, .LLLVar 100⟩,
  ⟨105, .AlphaNumericSpecial, .LLLVar 999⟩,
  ⟨106, .AlphaNumericSpecial, .LLLVar 999⟩,
  ⟨107, .AlphaNumericSpecial, .LLLVar 999⟩,
  ⟨108, .AlphaNumericSpecial, .LLLVar 999⟩,
  ⟨109, .AlphaNumericSpecial, .LLLVar 999⟩,
  ⟨110, .AlphaNumericSpecial, .LLLVar 999⟩,
  ⟨111, .AlphaNumericSpecial, .LLLVar 999⟩,
  ⟨112, .AlphaNumericSpecial, .LLLVar 999⟩,
  ⟨113, .AlphaNumericSpecial, .LLLVar 999⟩,
  ⟨114, .AlphaNumericSpecial, .LLLVar 999⟩,
  ⟨115, .AlphaNumericSpecial, .LLLVar 999⟩,
  ⟨116, .AlphaNumericSpecial, .LLLVar 999⟩,
  ⟨117, .AlphaNumericSpecial, .LLLVar 999⟩,
  ⟨118, .AlphaNumericSpecial, .LLLVar 999⟩,
  ⟨119, .AlphaNumericSpecial, .LLLVar 999⟩,
  ⟨120, .AlphaNumericSpecial, .LLLVar 999⟩,
  ⟨121, .AlphaNumericSpecial, .LLLVar 999⟩,
  ⟨122, .AlphaNumericSpecial, .LLLVar 999⟩,
  ⟨123, .AlphaNumericSpecial, .LLLVar 999⟩,
  ⟨124, .AlphaNumericSpecial, .LLLVar 255⟩,
  ⟨125, .AlphaNumericSpecial, .LLLVar 50⟩,
  ⟨126, .AlphaNumericSpecial, .LLLVar 6⟩,
  ⟨127, .AlphaNumericSpecial, .LLLVar 999⟩,
  ⟨128, .Binary, .Fixed 8⟩]

/-- The `get_field_definitions()` vector of `field.rs`, entry for entry in
source order.  Note that the source vector has only 121 entries: after the
entry for field 55 it jumps directly to field 64 (the comment in the source
says "Field 56-128 definitions would continue..."), so for indices 56 and up
the entry stored at index `i` carries field number `i + 8`. -/
def get_field_definitions : List FieldDefinition :=
  fieldDefsPart1 ++ fieldDefsPart2 ++ fieldDefsPart3

/-- `Field::definition()` of `field.rs`: positional lookup
`defs.get(num).cloned().unwrap_or_else(|| Unknown ans LLLVAR 999)`. -/
def fieldDefinition (num : Nat) : FieldDefinition :=
  match get_field_definitions.get? num with
  | some d => d
  | none => ⟨num, .AlphaNumericSpecial, .LLLVar 999⟩

/-- `FieldDefinition::get(number)` of `field.rs`: `None` for numbers above
128, otherwise `Some(defs[number])` — the direct indexing panics when the
vector is shorter than `number + 1`. -/
def FieldDefinition.getByNumber (number : Nat) : Except PError (Option FieldDefinition) :=
  if number > 128 then .ok none
  else match get_field_definitions.get? number with
       | some d => .ok (some d)
       | none => .error .panicked

/-- `Field::from_number(num)` of `field.rs`: errors on `0` and on numbers
above 128, otherwise yields the field (modelled by its number). -/
def Field.fromNumber (num : Nat) : Except Err Nat :=
  if num = 0 ∨ num > 128 then .error (.InvalidFieldNumber num) else .ok num

/-- Data type of the static `spec.rs` table (`DataType`). -/
inductive DataType where
  | Numeric
  | Alpha
  | Alphanumeric
  | AlphanumericSpecial
  | Binary
  | Track2
  | Track3
  deriving DecidableEq, Repr

/-- Length-encoding type of the static `spec.rs` table (`LengthType`). -/
inductive LengthType where
  | Fixed
  | Llvar
  | Lllvar
  deriving DecidableEq, Repr

/-- Field definition of the static `spec.rs` table (`FieldDefinition` in
`spec.rs`). -/
structure SpecFieldDefinition where
  data_type : DataType
  length_type : LengthType
  max_len : Nat
  deriving DecidableEq, Repr

/-- `FieldDefinition::fixed` of `spec.rs`. -/
def SpecFieldDefinition.fixed (d : DataType) (n : Nat) : SpecFieldDefinition :=
  ⟨d, .Fixed, n⟩

/-- `FieldDefinition::llvar` of `spec.rs`. -/
def SpecFieldDefinition.llvar (d : DataType) (n : Nat) : SpecFieldDefinition :=
  ⟨d, .Llvar, n⟩

/-- `FieldDefinition::lllvar` of `spec.rs`. -/
def SpecFieldDefinition.lllvar (d : DataType) (n : Nat) : SpecFieldDefinition :=
  ⟨d, .Lllvar, n⟩

/-- Slice 1 of the `ISO8583_1987_TABLE` entries (split only to keep list literals small). -/
def iso1987Part1 : List SpecFieldDefinition := [
  SpecFieldDefinition.fixed .Binary 8,
  SpecFieldDefinition.llvar .Numeric 19,
  SpecFieldDefinition.fixed .Numeric 6,
  SpecFieldDefinition.fixed .Numeric 12,
  SpecFieldDefinition.fixed .Numeric 12,
  SpecFieldDefinition.fixed .Numeric 12,
  SpecFieldDefinition.fixed .Numeric 10,
  SpecFieldDefinition.fixed .Numeric 8,
  SpecFieldDefinition.fixed .Numeric 8,
  SpecFieldDefinition.fixed .Numeric 8,
  SpecFieldDefinition.fixed .Numeric 6,
  SpecFieldDefinition.fixed .Numeric 6,
  SpecFieldDefinition.fixed .Numeric 4,
  SpecFieldDefinition.fixed .Numeric 4,
  SpecFieldDefinition.fixed .Numeric 4,
  SpecFieldDefinition.fixed .Numeric 4,
  SpecFieldDefinition.fixed .Numeric 4,
  SpecFieldDefinition.fixed .Numeric 4,
  SpecFieldDefinition.fixed .Numeric 3,
  SpecFieldDefinition.fixed .Numeric 3,
  SpecFieldDefinition.fixed .Numeric 3,
  SpecFieldDefinition.fixed .Numeric 3,
  SpecFieldDefinition.fixed .Numeric 3,
  SpecFieldDefinition.fixed .Numeric 3,
  SpecFieldDefinition.fixed .Numeric 2,
  SpecFieldDefinition.fixed .Numeric 2,
  SpecFieldDefinition.fixed .Numeric 1,
  SpecFieldDefinition.fixed .Numeric 9,
  SpecFieldDefinition.fixed .Numeric 9,
  SpecFieldDefinition.fixed .Numeric 9,
  SpecFieldDefinition.fixed .Numeric 9,
  SpecFieldDefinition.llvar .Numeric 11,
  SpecFieldDefinition.llvar .Numeric 11,
  SpecFieldDefinition.llvar .Alphanumeric 28,
  SpecFieldDefinition.llvar .Track2 37,
  SpecFieldDefinition.lllvar .Track3 104,
  SpecFieldDefinition.fixed .Alphanumeric 12,
  SpecFieldDefinition.fixed .Alphanumeric 6,
  SpecFieldDefinition.fixed .Alphanumeric 2,
  SpecFieldDefinition.fixed .Alphanumeric 3,
  SpecFieldDefinition.fixed .AlphanumericSpecial 8,
  SpecFieldDefinition.fixed .AlphanumericSpecial 15,
  SpecFieldDefinition.fixed .AlphanumericSpecial 40]

/-- Slice 2 of the `ISO8583_1987_TABLE` entries (split only to keep list literals small). -/
def iso1987Part2 : List SpecFieldDefinition := [
  SpecFieldDefinition.llvar .AlphanumericSpecial 25,
  SpecFieldDefinition.llvar .AlphanumericSpecial 76,
  SpecFieldDefinition.lllvar .AlphanumericSpecial 999,
  SpecFieldDefinition.lllvar .AlphanumericSpecial 999,
  SpecFieldDefinition.lllvar .AlphanumericSpecial 999,
  SpecFieldDefinition.fixed .Alphanumeric 3,
  SpecFieldDefinition.fixed .Alphanumeric 3,
  SpecFieldDefinition.fixed .Alphanumeric 3,
  SpecFieldDefinition.fixed .Binary 8,
  SpecFieldDefinition.fixed .Numeric 16,
  SpecFieldDefinition.lllvar .AlphanumericSpecial 120,
  SpecFieldDefinition.lllvar .Binary 999,
  SpecFieldDefinition.lllvar .AlphanumericSpecial 999,
  SpecFieldDefinition.lllvar .AlphanumericSpecial 999,
  SpecFieldDefinition.lllvar .AlphanumericSpecial 999,
  SpecFieldDefinition.lllvar .AlphanumericSpecial 999,
  SpecFieldDefinition.lllvar .AlphanumericSpecial 999,
  SpecFieldDefinition.lllvar .AlphanumericSpecial 999,
  SpecFieldDefinition.lllvar .AlphanumericSpecial 999,
  SpecFieldDefinition.lllvar .AlphanumericSpecial 999,
  SpecFieldDefinition.fixed .Binary 8,
  SpecFieldDefinition.fixed .Binary 8,
  SpecFieldDefinition.fixed .Numeric 1,
  SpecFieldDefinition.fixed .Numeric 2,
  SpecFieldDefinition.fixed .Numeric 3,
  SpecFieldDefinition.fixed .Numeric 3,
  SpecFieldDefinition.fixed .Numeric 3,
  SpecFieldDefinition.fixed .Numeric 4,
  SpecFieldDefinition.fixed .Numeric 4,
  SpecFieldDefinition.fixed .Numeric 6,
  SpecFieldDefinition.fixed .Numeric 10,
  SpecFieldDefinition.fixed .Numeric 10,
  SpecFieldDefinition.fixed .Numeric 10,
  SpecFieldDefinition.fixed .Numeric 10,
  SpecFieldDefinition.fixed .Numeric 10,
  SpecFieldDefinition.fixed .Numeric 10,
  SpecFieldDefinition.fixed .Numeric 10,
  SpecFieldDefinition.fixed .Numeric 10,
  SpecFieldDefinition.fixed .Numeric 12,
  SpecFieldDefinition.fixed .Numeric 12,
  SpecFieldDefinition.fixed .Numeric 12,
  SpecFieldDefinition.fixed .Numeric 12,
  SpecFieldDefinition.fixed .Numeric 16]

/-- Slice 3 of the `ISO8583_1987_TABLE` entries (split only to keep list literals small). -/
def iso1987Part3 : List SpecFieldDefinition := [
  SpecFieldDefinition.fixed .Numeric 16,
  SpecFieldDefinition.fixed .Numeric 16,
  SpecFieldDefinition.fixed .Numeric 16,
  SpecFieldDefinition.fixed .Numeric 42,
  SpecFieldDefinition.fixed .Alphanumeric 1,
  SpecFieldDefinition.fixed .Alphanumeric 2,
  SpecFieldDefinition.fixed .Alphanumeric 5,
  SpecFieldDefinition.fixed .Alphanumeric 7,
  SpecFieldDefinition.fixed .Alphanumeric 42,
  SpecFieldDefinition.fixed .Binary 8,
  SpecFieldDefinition.fixed .Numeric 16,
  SpecFieldDefinition.fixed .AlphanumericSpecial 25,
  SpecFieldDefinition.llvar .Numeric 11,
  SpecFieldDefinition.llvar .Numeric 11,
  SpecFieldDefinition.llvar .AlphanumericSpecial 17,
  SpecFieldDefinition.llvar .AlphanumericSpecial 28,
  SpecFieldDefinition.llvar .AlphanumericSpecial 28,
  SpecFieldDefinition.lllvar .AlphanumericSpecial 100,
  SpecFieldDefinition.lllvar .AlphanumericSpecial 999,
  SpecFieldDefinition.lllvar .AlphanumericSpecial 999,
  SpecFieldDefinition.lllvar .AlphanumericSpecial 999,
  SpecFieldDefinition.lllvar .AlphanumericSpecial 999,
  SpecFieldDefinition.lllvar .AlphanumericSpecial 999,
  SpecFieldDefinition.lllvar .AlphanumericSpecial 999,
  SpecFieldDefinition.lllvar .AlphanumericSpecial 999,
  SpecFieldDefinition.lllvar .AlphanumericSpecial 999,
  SpecFieldDefinition.lllvar .AlphanumericSpecial 999,
  SpecFieldDefinition.lllvar .AlphanumericSpecial 999,
  SpecFieldDefinition.lllvar .AlphanumericSpecial 999,
  SpecFieldDefinition.lllvar .AlphanumericSpecial 999,
  SpecFieldDefinition.lllvar .AlphanumericSpecial 999,
  SpecFieldDefinition.lllvar .AlphanumericSpecial 999,
  SpecFieldDefinition.lllvar .AlphanumericSpecial 999,
  SpecFieldDefinition.lllvar .AlphanumericSpecial 999,
  SpecFieldDefinition.lllvar .AlphanumericSpecial 999,
  SpecFieldDefinition.lllvar .AlphanumericSpecial 999,
  SpecFieldDefinition.lllvar .AlphanumericSpecial 999,
  SpecFieldDefinition.lllvar .AlphanumericSpecial 255,
  SpecFieldDefinition.lllvar .AlphanumericSpecial 50,
  SpecFieldDefinition.lllvar .AlphanumericSpecial 6,
  SpecFieldDefinition.lllvar .AlphanumericSpecial 999,
  SpecFieldDefinition.fixed .Binary 8]

/-- The `ISO8583_1987_TABLE` of `spec.rs`: a 129-entry array indexed by
field number, `none` at index 0, entry for entry in source order. -/
def ISO8583_1987_TABLE : List (Option SpecFieldDefinition) :=
  none :: (iso1987Part1 ++ iso1987Part2 ++ iso1987Part3).map some

/-- `Iso1987::get_field(number)` of `spec.rs`: bounds-checked table index. -/
def Iso1987.getField (number : Nat) : Option SpecFieldDefinition :=
  if number < ISO8583_1987_TABLE.length then (ISO8583_1987_TABLE.get? number).join
  else none

/-- Correspondence between the two data-type enums, as named by the claim:
same data type. -/
def dataTypeMatches : FieldType → DataType → Bool
  | .Numeric, .Numeric => true
  | .Alpha, .Alpha => true
  | .AlphaNumeric, .Alphanumeric => true
  | .AlphaNumericSpecial, .AlphanumericSpecial => true
  | .Binary, .Binary => true
  | .Track2, .Track2 => true
  | .Track3, .Track3 => true
  | _, _ => false

/-- Length-encoding kind (Fixed / LLVAR / LLLVAR) of a `field.rs` length. -/
def FieldLength.kind : FieldLength → LengthType
  | .Fixed _ => .Fixed
  | .LLVar _ => .Llvar
  | .LLLVar _ => .Lllvar

/-- (Maximum) length carried by a `field.rs` length. -/
def FieldLength.maxLen : FieldLength → Nat
  | .Fixed n => n
  | .LLVar n => n
  | .LLLVar n => n

/-- `is_set_in_bitmap` of `bitmap_simd.rs`: bit of an 8-byte block, MSB
first, 1-indexed. -/
def isSetInBitmap (bitmap : List Nat) (field : Nat) : Bool :=
  if field = 0 ∨ field > 64 then false
  else
    let byteIndex := (field - 1) / 8
    let bitIndex := 7 - ((field - 1) % 8)
    (bitmap.getD byteIndex 0) &&& (1 <<< bitIndex) != 0

/-- `set_in_bitmap` of `bitmap_simd.rs`. -/
def setInBitmap (bitmap : List Nat) (field : Nat) : List Nat :=
  if field = 0 ∨ field > 64 then bitmap
  else
    let byteIndex := (field - 1) / 8
    let bitIndex := 7 - ((field - 1) % 8)
    bitmap.set byteIndex ((bitmap.getD byteIndex 0) ||| (1 <<< bitIndex))

/-- `clear_in_bitmap` of `bitmap_simd.rs`; the Rust `&= !(1 << bit)` on a
`u8` is conjunction with `0xFF XOR (1 << bit)`. -/
def clearInBitmap (bitmap : List Nat) (field : Nat) : List Nat :=
  if field = 0 ∨ field > 64 then bitmap
  else
    let byteIndex := (field - 1) / 8
    let bitIndex := 7 - ((field - 1) % 8)
    bitmap.set byteIndex ((bitmap.getD byteIndex 0) &&& (255 ^^^ (1 <<< bitIndex)))

/-- The tri-level presence bitmap of `bitmap_simd.rs` (re-exported by
`lib.rs` as `bitmap`, hence the bitmap used by `message.rs`). -/
structure Bitmap where
  primary : List Nat
  secondary : Option (List Nat)
  tertiary : Option (List Nat)
  deriving DecidableEq, Repr

/-- `Bitmap::new()`. -/
def Bitmap.new : Bitmap := ⟨List.replicate 8 0, none, none⟩

/-- `Bitmap::is_set`. -/
def Bitmap.isSet (b : Bitmap) (field : Nat) : Bool :=
  if field = 0 ∨ field > 192 then false
  else if field ≤ 64 then isSetInBitmap b.primary field
  else if field ≤ 128 then
    match b.secondary with
    | some s => isSetInBitmap s (field - 64)
    | none => false
  else
    match b.tertiary with
    | some t => isSetInBitmap t (field - 128)
    | none => false

/-- `Bitmap::set`.  The Rust arms (1, 2..=64, 65, 66..=128, 129..=192) are
translated one for one, including the lazy block allocation and the
indicator-bit side effects that happen only when a block is allocated. -/
def Bitmap.set (b : Bitmap) (field : Nat) : Except String Bitmap :=
  if field = 0 ∨ field > 192 then .error "Field number out of range (1-192)"
  else if field = 1 then
    let b1 := { b with primary := setInBitmap b.primary 1 }
    .ok (if b1.secondary = none then { b1 with secondary := some (List.replicate 8 0) } else b1)
  else if field ≤ 64 then
    .ok { b with primary := setInBitmap b.primary field }
  else if field = 65 then
    let b1 := if b.secondary = none then
        { b with secondary := some (List.replicate 8 0), primary := setInBitmap b.primary 1 }
      else b
    match b1.secondary with
    | some s =>
      let b2 := { b1 with secondary := some (setInBitmap s 1) }
      .ok (if b2.tertiary = none then { b2 with tertiary := some (List.replicate 8 0) } else b2)
    | none => .ok b1
  else if field ≤ 128 then
    let b1 := if b.secondary = none then
        { b with secondary := some (List.replicate 8 0), primary := setInBitmap b.primary 1 }
      else b
    match b1.secondary with
    | some s => .ok { b1 with secondary := some (setInBitmap s (field - 64)) }
    | none => .ok b1
  else
    let b1 := if b.secondary = none then
        { b with secondary := some (List.replicate 8 0), primary := setInBitmap b.primary 1 }
      else b
    let b2 := match b1.secondary with
      | some s =>
        if b1.tertiary = none then
          { b1 with tertiary := some (List.replicate 8 0), secondary := some (setInBitmap s 1) }
        else b1
      | none => b1
    match b2.tertiary with
    | some t => .ok { b2 with tertiary := some (setInBitmap t (field - 128)) }
    | none => .ok b2

/-- `Bitmap::clear`. -/
def Bitmap.clear (b : Bitmap) (field : Nat) : Except String Bitmap :=
  if field = 0 ∨ field > 192 then .error "Field number out of range (1-192)"
  else if field ≤ 64 then
    .ok { b with primary := clearInBitmap b.primary field }
  else if field ≤ 128 then
    .ok (match b.secondary with
         | some s => { b with secondary := some (clearInBitmap s (field - 64)) }
         | none => b)
  else
    .ok (match b.tertiary with
         | some t => { b with tertiary := some (clearInBitmap t (field - 128)) }
         | none => b)

/-- `Bitmap::get_set_fields`: ascending field numbers over the present
blocks (the Rust function returns a 192-slot array plus a count; callers use
the first `count` entries, which is this list). -/
def Bitmap.getSetFields (b : Bitmap) : List Nat :=
  ((List.range' 1 64).filter (fun f => isSetInBitmap b.primary f)) ++
  (match b.secondary with
   | some s => ((List.range' 1 64).filter (fun f => isSetInBitmap s f)).map (fun f => f + 64)
   | none => []) ++
  (match b.tertiary with
   | some t => ((List.range' 1 64).filter (fun f => isSetInBitmap t f)).map (fun f => f + 128)
   | none => [])

/-- `Bitmap::to_bytes`: the meaningful `len`-byte portion of the Rust
`([u8; 24], usize)` return value. -/
def Bitmap.toBytes (b : Bitmap) : List Nat :=
  b.primary ++ b.secondary.getD [] ++ b.tertiary.getD []

/-- `Bitmap::from_bytes`. -/
def Bitmap.fromBytes (bytes : List Nat) : Except String Bitmap :=
  if bytes.length < 8 then .error "Bitmap must be at least 8 bytes"
  else
    let bm : Bitmap := ⟨bytes.take 8, none, none⟩
    if bm.isSet 1 ∧ bytes.length ≥ 16 then
      let bm2 : Bitmap := { bm with secondary := some ((bytes.drop 8).take 8) }
      if bm2.isSet 65 ∧ bytes.length ≥ 24 then
        .ok { bm2 with tertiary := some ((bytes.drop 16).take 8) }
      else .ok bm2
    else .ok bm

/-- Lower-case hex digit of a nibble (`hex::encode`). -/
def hexDigitChar (n : Nat) : Nat :=
  if n < 10 then 0x30 + n else 0x57 + n

/-- `hex::encode`: two lower-case hex characters (as ASCII bytes) per byte. -/
def hexEncode (bs : List Nat) : List Nat :=
  bs.flatMap (fun b => [hexDigitChar (b / 16), hexDigitChar (b % 16)])

/-- Value of one hex character, upper or lower case (`hex::decode`). -/
def hexVal (c : Nat) : Option Nat :=
  if 0x30 ≤ c ∧ c ≤ 0x39 then some (c - 0x30)
  else if 0x61 ≤ c ∧ c ≤ 0x66 then some (c - 0x57)
  else if 0x41 ≤ c ∧ c ≤ 0x46 then some (c - 0x37)
  else none

/-- `hex::decode`: fails on odd length or a non-hex character. -/
def hexDecode : List Nat → Option (List Nat)
  | [] => some []
  | [_] => none
  | c1 :: c2 :: rest =>
    match hexVal c1, hexVal c2, hexDecode rest with
    | some h, some l, some bs => some ((h * 16 + l) :: bs)
    | _, _, _ => none

/-- `Bitmap::from_hex` (the argument is the ASCII byte sequence of the hex
string). -/
def Bitmap.fromHex (s : List Nat) : Except String Bitmap :=
  match hexDecode s with
  | some bs => Bitmap.fromBytes bs
  | none => .error "Invalid hex string"

/-- Bit test written with the mask arithmetic of the source equals
`Nat.testBit`. -/
theorem and_mask_bne (x i : Nat) : (x &&& (1 <<< i) != 0) = x.testBit i := by
  rw [Nat.one_shiftLeft, Nat.and_two_pow]
  cases h : x.testBit i <;> simp

/-- `isSetInBitmap` in terms of `Nat.testBit`. -/
theorem isSetInBitmap_eq_testBit {f : Nat} (h1 : 1 ≤ f) (h2 : f ≤ 64) (blk : List Nat) :
    isSetInBitmap blk f = (blk.getD ((f - 1) / 8) 0).testBit (7 - (f - 1) % 8) := by
  have hr : ¬ (f = 0 ∨ f > 64) := by omega
  simp only [isSetInBitmap, hr, if_false, and_mask_bne]

/-- `Nat.testBit 255 k` for `k < 8`. -/
theorem testBit_255 {k : Nat} (h : k < 8) : Nat.testBit 255 k = true := by
  interval_cases k <;> decide

/-- Setting bit `f` of a full 8-byte block makes it read back set. -/
theorem isSetInBitmap_setInBitmap_self {blk : List Nat} {f : Nat}
    (h1 : 1 ≤ f) (h2 : f ≤ 64) (hlen : blk.length = 8) :
    isSetInBitmap (setInBitmap blk f) f = true := by
  have hr : ¬ (f = 0 ∨ f > 64) := by omega
  have hbi : (f - 1) / 8 < blk.length := by omega
  rw [isSetInBitmap_eq_testBit h1 h2]
  simp only [setInBitmap, hr, if_false]
  rw [List.getD_eq_getElem?_getD, List.getElem?_set_self hbi, Option.getD_some,
      Nat.one_shiftLeft, Nat.testBit_lor, Nat.testBit_two_pow_self]
  simp

/-- Setting bit `f` leaves every other bit `g` unchanged. -/
theorem isSetInBitmap_setInBitmap_ne {blk : List Nat} {f g : Nat} (hne : g ≠ f) :
    isSetInBitmap (setInBitmap blk f) g = isSetInBitmap blk g := by
  by_cases hf : f = 0 ∨ f > 64
  · simp only [setInBitmap, hf, if_true]
  by_cases hg : g = 0 ∨ g > 64
  · simp only [isSetInBitmap, hg, if_true]
  rw [isSetInBitmap_eq_testBit (by omega) (by omega),
      isSetInBitmap_eq_testBit (by omega) (by omega)]
  simp only [setInBitmap, hf, if_false]
  rw [List.getD_eq_getElem?_getD, List.getElem?_set]
  by_cases hbi : (f - 1) / 8 = (g - 1) / 8
  · rw [if_pos hbi]
    by_cases hlt : (f - 1) / 8 < blk.length
    · rw [if_pos hlt, Option.getD_some]
      have hbit : 7 - (f - 1) % 8 ≠ 7 - (g - 1) % 8 := by omega
      rw [Nat.one_shiftLeft, Nat.testBit_lor, Nat.testBit_two_pow_of_ne hbit]
      rw [List.getD_eq_getElem?_getD, hbi]
      simp
    · rw [if_neg hlt, Option.getD_none, List.getD_eq_getElem?_getD,
          List.getElem?_eq_none (by omega : blk.length ≤ (g - 1) / 8), Option.getD_none]
  · rw [if_neg hbi, ← List.getD_eq_getElem?_getD]

/-- Clearing bit `f` makes it read back unset. -/
theorem isSetInBitmap_clearInBitmap_self (blk : List Nat) (f : Nat) :
    isSetInBitmap (clearInBitmap blk f) f = false := by
  by_cases hf : f = 0 ∨ f > 64
  · simp only [isSetInBitmap, hf, if_true]
  rw [isSetInBitmap_eq_testBit (by omega) (by omega)]
  simp only [clearInBitmap, hf, if_false]
  rw [List.getD_eq_getElem?_getD, List.getElem?_set, if_pos rfl]
  by_cases hlt : (f - 1) / 8 < blk.length
  · rw [if_pos hlt, Option.getD_some, Nat.one_shiftLeft, Nat.testBit_land,
        Nat.testBit_xor, testBit_255 (by omega), Nat.testBit_two_pow_self]
    simp
  · rw [if_neg hlt, Option.getD_none]
    simp

/-- Clearing bit `f` leaves every other bit `g` unchanged. -/
theorem isSetInBitmap_clearInBitmap_ne {blk : List Nat} {f g : Nat} (hne : g ≠ f) :
    isSetInBitmap (clearInBitmap blk f) g = isSetInBitmap blk g := by
  by_cases hf : f = 0 ∨ f > 64
  · simp only [clearInBitmap, hf, if_true]
  by_cases hg : g = 0 ∨ g > 64
  · simp only [isSetInBitmap, hg, if_true]
  rw [isSetInBitmap_eq_testBit (by omega) (by omega),
      isSetInBitmap_eq_testBit (by omega) (by omega)]
  simp only [clearInBitmap, hf, if_false]
  rw [List.getD_eq_getElem?_getD, List.getElem?_set]
  by_cases hbi : (f - 1) / 8 = (g - 1) / 8
  · rw [if_pos hbi]
    by_cases hlt : (f - 1) / 8 < blk.length
    · rw [if_pos hlt, Option.getD_some]
      have hbit : 7 - (f - 1) % 8 ≠ 7 - (g - 1) % 8 := by omega
      rw [Nat.one_shiftLeft, Nat.testBit_land, Nat.testBit_xor,
          testBit_255 (by omega), Nat.testBit_two_pow_of_ne hbit]
      rw [List.getD_eq_getElem?_getD, hbi]
      simp
    · rw [if_neg hlt, Option.getD_none, List.getD_eq_getElem?_getD,
          List.getElem?_eq_none (by omega : blk.length ≤ (g - 1) / 8), Option.getD_none]
  · rw [if_neg hbi, ← List.getD_eq_getElem?_getD]

/-- Well-formedness carried by the Rust types: every allocated block is an
8-byte array (`[u8; 8]`). -/
def Bitmap.wfB (b : Bitmap) : Bool :=
  (b.primary.length == 8) &&
  (match b.secondary with | some s => s.length == 8 | none => true) &&
  (match b.tertiary with | some t => t.length == 8 | none => true)

/-- Allocation/indicator consistency: an allocated secondary block has bit 1
of the primary set, and an allocated tertiary block has bit 1 of an
allocated secondary set.  It holds for `Bitmap::new()` and is preserved by
`set`, but `clear(1)` / `clear(65)` can break it. -/
def Bitmap.consistentB (b : Bitmap) : Bool :=
  (match b.secondary with | some _ => isSetInBitmap b.primary 1 | none => true) &&
  (match b.tertiary with
   | some _ => (match b.secondary with | some s => isSetInBitmap s 1 | none => false)
   | none => true)

/-- Reduction of `Bitmap::set` on the `2..=64` arm. -/
theorem Bitmap.set_arm2 (p : List Nat) (sec ter : Option (List Nat)) {f : Nat}
    (h1 : 2 ≤ f) (h2 : f ≤ 64) :
    Bitmap.set ⟨p, sec, ter⟩ f = .ok ⟨setInBitmap p f, sec, ter⟩ := by
  simp only [Bitmap.set]
  rw [if_neg (by omega), if_neg (by omega : ¬ f = 1), if_pos h2]

/-- Reduction of `Bitmap::set` on the `1` arm, unallocated secondary. -/
theorem Bitmap.set_arm1_none (p : List Nat) (ter : Option (List Nat)) :
    Bitmap.set ⟨p, none, ter⟩ 1 = .ok ⟨setInBitmap p 1, some (List.replicate 8 0), ter⟩ := by
  simp [Bitmap.set]

/-- Reduction of `Bitmap::set` on the `1` arm, allocated secondary. -/
theorem Bitmap.set_arm1_some (p s : List Nat) (ter : Option (List Nat)) :
    Bitmap.set ⟨p, some s, ter⟩ 1 = .ok ⟨setInBitmap p 1, some s, ter⟩ := by
  simp [Bitmap.set]

/-- Reduction of `Bitmap::set` on the `65` arm, unallocated secondary and
tertiary. -/
theorem Bitmap.set_arm65_none_none (p : List Nat) :
    Bitmap.set ⟨p, none, none⟩ 65 =
      .ok ⟨setInBitmap p 1, some (setInBitmap (List.replicate 8 0) 1),
           some (List.replicate 8 0)⟩ := by
  simp [Bitmap.set]

/-- Reduction of `Bitmap::set` on the `65` arm, allocated secondary,
unallocated tertiary. -/
theorem Bitmap.set_arm65_some_none (p s : List Nat) :
    Bitmap.set ⟨p, some s, none⟩ 65 =
      .ok ⟨p, some (setInBitmap s 1), some (List.replicate 8 0)⟩ := by
  simp [Bitmap.set]

/-- Reduction of `Bitmap::set` on the `65` arm, everything allocated. -/
theorem Bitmap.set_arm65_some_some (p s t : List Nat) :
    Bitmap.set ⟨p, some s, some t⟩ 65 = .ok ⟨p, some (setInBitmap s 1), some t⟩ := by
  simp [Bitmap.set]

/-- Reduction of `Bitmap::set` on the `65` arm, unallocated secondary but
allocated tertiary. -/
theorem Bitmap.set_arm65_none_some (p t : List Nat) :
    Bitmap.set ⟨p, none, some t⟩ 65 =
      .ok ⟨setInBitmap p 1, some (setInBitmap (List.replicate 8 0) 1), some t⟩ := by
  simp [Bitmap.set]

/-- Reduction of `Bitmap::set` on the `66..=128` arm, unallocated
secondary. -/
theorem Bitmap.set_arm66_none (p : List Nat) (ter : Option (List Nat)) {f : Nat}
    (h1 : 66 ≤ f) (h2 : f ≤ 128) :
    Bitmap.set ⟨p, none, ter⟩ f =
      .ok ⟨setInBitmap p 1, some (setInBitmap (List.replicate 8 0) (f - 64)), ter⟩ := by
  simp only [Bitmap.set]
  rw [if_neg (by omega), if_neg (by omega : ¬ f = 1), if_neg (by omega : ¬ f ≤ 64),
      if_neg (by omega : ¬ f = 65), if_pos h2]
  simp

/-- Reduction of `Bitmap::set` on the `66..=128` arm, allocated secondary. -/
theorem Bitmap.set_arm66_some (p s : List Nat) (ter : Option (List Nat)) {f : Nat}
    (h1 : 66 ≤ f) (h2 : f ≤ 128) :
    Bitmap.set ⟨p, some s, ter⟩ f = .ok ⟨p, some (setInBitmap s (f - 64)), ter⟩ := by
  simp only [Bitmap.set]
  rw [if_neg (by omega), if_neg (by omega : ¬ f = 1), if_neg (by omega : ¬ f ≤ 64),
      if_neg (by omega : ¬ f = 65), if_pos h2]
  simp

/-- Reduction of `Bitmap::set` on the `129..=192` arm, nothing allocated. -/
theorem Bitmap.set_arm129_none_none (p : List Nat) {f : Nat}
    (h1 : 129 ≤ f) (h2 : f ≤ 192) :
    Bitmap.set ⟨p, none, none⟩ f =
      .ok ⟨setInBitmap p 1, some (setInBitmap (List.replicate 8 0) 1),
           some (setInBitmap (List.replicate 8 0) (f - 128))⟩ := by
  simp only [Bitmap.set]
  rw [if_neg (by omega), if_neg (by omega : ¬ f = 1), if_neg (by omega : ¬ f ≤ 64),
      if_neg (by omega : ¬ f = 65), if_neg (by omega : ¬ f ≤ 128)]
  simp

/-- Reduction of `Bitmap::set` on the `129..=192` arm, allocated secondary,
unallocated tertiary. -/
theorem Bitmap.set_arm129_some_none (p s : List Nat) {f : Nat}
    (h1 : 129 ≤ f) (h2 : f ≤ 192) :
    Bitmap.set ⟨p, some s, none⟩ f =
      .ok ⟨p, some (setInBitmap s 1), some (setInBitmap (List.replicate 8 0) (f - 128))⟩ := by
  simp only [Bitmap.set]
  rw [if_neg (by omega), if_neg (by omega : ¬ f = 1), if_neg (by omega : ¬ f ≤ 64),
      if_neg (by omega : ¬ f = 65), if_neg (by omega : ¬ f ≤ 128)]
  simp

/-- Reduction of `Bitmap::set` on the `129..=192` arm, everything
allocated. -/
theorem Bitmap.set_arm129_some_some (p s t : List Nat) {f : Nat}
    (h1 : 129 ≤ f) (h2 : f ≤ 192) :
    Bitmap.set ⟨p, some s, some t⟩ f =
      .ok ⟨p, some s, some (setInBitmap t (f - 128))⟩ := by
  simp only [Bitmap.set]
  rw [if_neg (by omega), if_neg (by omega : ¬ f = 1), if_neg (by omega : ¬ f ≤ 64),
      if_neg (by omega : ¬ f = 65), if_neg (by omega : ¬ f ≤ 128)]
  simp

/-- Reduction of `Bitmap::set` on the `129..=192` arm, unallocated secondary
with allocated tertiary (an inconsistent state: the Rust code then leaves the
secondary indicator untouched). -/
theorem Bitmap.set_arm129_none_some (p t : List Nat) {f : Nat}
    (h1 : 129 ≤ f) (h2 : f ≤ 192) :
    Bitmap.set ⟨p, none, some t⟩ f =
      .ok ⟨setInBitmap p 1, some (List.replicate 8 0), some (setInBitmap t (f - 128))⟩ := by
  simp only [Bitmap.set]
  rw [if_neg (by omega), if_neg (by omega : ¬ f = 1), if_neg (by omega : ¬ f ≤ 64),
      if_neg (by omega : ¬ f = 65), if_neg (by omega : ¬ f ≤ 128)]
  simp

/-- `Bitmap::is_set` on the primary range. -/
theorem Bitmap.isSet_le64 (p : List Nat) (sec ter : Option (List Nat)) {f : Nat}
    (h1 : 1 ≤ f) (h2 : f ≤ 64) :
    Bitmap.isSet ⟨p, sec, ter⟩ f = isSetInBitmap p f := by
  simp only [Bitmap.isSet]
  rw [if_neg (by omega), if_pos h2]

/-- `Bitmap::is_set` on the secondary range with an allocated block. -/
theorem Bitmap.isSet_secondary (p s : List Nat) (ter : Option (List Nat)) {f : Nat}
    (h1 : 65 ≤ f) (h2 : f ≤ 128) :
    Bitmap.isSet ⟨p, some s, ter⟩ f = isSetInBitmap s (f - 64) := by
  simp only [Bitmap.isSet]
  rw [if_neg (by omega), if_neg (by omega : ¬ f ≤ 64), if_pos h2]

/-- `Bitmap::is_set` on the tertiary range with an allocated block. -/
theorem Bitmap.isSet_tertiary (p : List Nat) (sec : Option (List Nat)) (t : List Nat) {f : Nat}
    (h1 : 129 ≤ f) (h2 : f ≤ 192) :
    Bitmap.isSet ⟨p, sec, some t⟩ f = isSetInBitmap t (f - 128) := by
  simp only [Bitmap.isSet]
  rw [if_neg (by omega), if_neg (by omega : ¬ f ≤ 64), if_neg (by omega : ¬ f ≤ 128)]

/-- C7 counterexample: the claim as stated quantifies over any bitmap, but
`clear(1)` can detach the allocated secondary block from the bit-1
indicator; setting field 80 on such a bitmap sets bit 80 without restoring
bit 1, so `is_set(1)` stays false after `set(80)`. -/
theorem C7_cascade_counterexample :
    ((Bitmap.new.set 70).bind fun b1 =>
      (b1.clear 1).bind fun b2 =>
        (b2.set 80).map fun b3 => (b3.isSet 80, b3.isSet 1)) = .ok (true, false) := by
  rfl

/-- C7 (amended): on a bitmap whose allocated blocks are 8-byte arrays and
whose block allocation is consistent with the indicator bits (true of
`Bitmap::new()` and preserved by `set`; only `clear` on an indicator bit can
break it), `set(f)` for f in [1,192] succeeds and makes `is_set(f)` true;
for f in [65,128] it also makes `is_set(1)` true; for f in [129,192] it
makes `is_set(1)` and `is_set(65)` true.  `set(0)` and `set(f)` for f > 192
return an out-of-range error (and, `set` being a pure function on the
embedded state, the bitmap passed in is untouched). -/
theorem C7_bitmap_set_cascade (b : Bitmap) (f : Nat)
    (hwf : b.wfB = true) (hcons : b.consistentB = true) :
    (1 ≤ f ∧ f ≤ 192 →
      ∃ b', b.set f = .ok b' ∧ b'.isSet f = true ∧
        (65 ≤ f ∧ f ≤ 128 → b'.isSet 1 = true) ∧
        (129 ≤ f → b'.isSet 1 = true ∧ b'.isSet 65 = true)) ∧
    ((f = 0 ∨ 192 < f) → b.set f = .error "Field number out of range (1-192)") := by
  obtain ⟨p, sec, ter⟩ := b
  simp only [Bitmap.wfB, Bool.and_eq_true, beq_iff_eq] at hwf
  obtain ⟨⟨hplen, hsec⟩, hter⟩ := hwf
  simp only [Bitmap.consistentB, Bool.and_eq_true] at hcons
  obtain ⟨hc1, hc2⟩ := hcons
  constructor
  · rintro ⟨hf1, hf2⟩
    have hrep : (List.replicate 8 0 : List Nat).length = 8 := by simp
    by_cases hf1e : f = 1
    · subst hf1e
      cases sec with
      | none =>
        refine ⟨_, Bitmap.set_arm1_none p ter, ?_, fun h => absurd h.1 (by omega),
          fun h => absurd h (by omega)⟩
        rw [Bitmap.isSet_le64 _ _ _ (by omega) (by omega)]
        exact isSetInBitmap_setInBitmap_self (by omega) (by omega) hplen
      | some s =>
        refine ⟨_, Bitmap.set_arm1_some p s ter, ?_, fun h => absurd h.1 (by omega),
          fun h => absurd h (by omega)⟩
        rw [Bitmap.isSet_le64 _ _ _ (by omega) (by omega)]
        exact isSetInBitmap_setInBitmap_self (by omega) (by omega) hplen
    by_cases hf64 : f ≤ 64
    · refine ⟨_, Bitmap.set_arm2 p sec ter (by omega) hf64, ?_,
        fun h => absurd h.1 (by omega), fun h => absurd h (by omega)⟩
      rw [Bitmap.isSet_le64 _ _ _ (by omega) hf64]
      exact isSetInBitmap_setInBitmap_self (by omega) hf64 hplen
    by_cases hf65 : f = 65
    · subst hf65
      cases sec with
      | none =>
        cases ter with
        | none =>
          refine ⟨_, Bitmap.set_arm65_none_none p, ?_, ?_, fun h => absurd h (by omega)⟩
          · rw [Bitmap.isSet_secondary _ _ _ (by omega) (by omega)]
            exact isSetInBitmap_setInBitmap_self (by omega) (by omega) hrep
          · intro _
            rw [Bitmap.isSet_le64 _ _ _ (by omega) (by omega)]
            exact isSetInBitmap_setInBitmap_self (by omega) (by omega) hplen
        | some t => exact absurd hc2 (by simp)
      | some s =>
        have hp1 : isSetInBitmap p 1 = true := hc1
        have hs8 : s.length = 8 := by simpa using hsec
        cases ter with
        | none =>
          refine ⟨_, Bitmap.set_arm65_some_none p s, ?_, ?_, fun h => absurd h (by omega)⟩
          · rw [Bitmap.isSet_secondary _ _ _ (by omega) (by omega)]
            exact isSetInBitmap_setInBitmap_self (by omega) (by omega) hs8
          · intro _
            rw [Bitmap.isSet_le64 _ _ _ (by omega) (by omega)]
            exact hp1
        | some t =>
          refine ⟨_, Bitmap.set_arm65_some_some p s t, ?_, ?_, fun h => absurd h (by omega)⟩
          · rw [Bitmap.isSet_secondary _ _ _ (by omega) (by omega)]
            exact isSetInBitmap_setInBitmap_self (by omega) (by omega) hs8
          · intro _
            rw [Bitmap.isSet_le64 _ _ _ (by omega) (by omega)]
            exact hp1
    by_cases hf128 : f ≤ 128
    · cases sec with
      | none =>
        refine ⟨_, Bitmap.set_arm66_none p ter (by omega) hf128, ?_, ?_,
          fun h => absurd h (by omega)⟩
        · rw [Bitmap.isSet_secondary _ _ _ (by omega) hf128]
          exact isSetInBitmap_setInBitmap_self (by omega) (by omega) hrep
        · intro _
          rw [Bitmap.isSet_le64 _ _ _ (by omega) (by omega)]
          exact isSetInBitmap_setInBitmap_self (by omega) (by omega) hplen
      | some s =>
        have hp1 : isSetInBitmap p 1 = true := hc1
        have hs8 : s.length = 8 := by simpa using hsec
        refine ⟨_, Bitmap.set_arm66_some p s ter (by omega) hf128, ?_, ?_,
          fun h => absurd h (by omega)⟩
        · rw [Bitmap.isSet_secondary _ _ _ (by omega) hf128]
          exact isSetInBitmap_setInBitmap_self (by omega) (by omega) hs8
        · intro _
          rw [Bitmap.isSet_le64 _ _ _ (by omega) (by omega)]
          exact hp1
    · cases sec with
      | none =>
        cases ter with
        | none =>
          refine ⟨_, Bitmap.set_arm129_none_none p (by omega) hf2, ?_,
            fun h => absurd h.2 (by omega), fun _ => ⟨?_, ?_⟩⟩
          · rw [Bitmap.isSet_tertiary _ _ _ (by omega) hf2]
            exact isSetInBitmap_setInBitmap_self (by omega) (by omega) hrep
          · rw [Bitmap.isSet_le64 _ _ _ (by omega) (by omega)]
            exact isSetInBitmap_setInBitmap_self (by omega) (by omega) hplen
          · rw [Bitmap.isSet_secondary _ _ _ (by omega) (by omega)]
            exact isSetInBitmap_setInBitmap_self (by omega) (by omega) hrep
        | some t => exact absurd hc2 (by simp)
      | some s =>
        have hp1 : isSetInBitmap p 1 = true := hc1
        have hs8 : s.length = 8 := by simpa using hsec
        cases ter with
        | none =>
          refine ⟨_, Bitmap.set_arm129_some_none p s (by omega) hf2, ?_,
            fun h => absurd h.2 (by omega), fun _ => ⟨?_, ?_⟩⟩
          · rw [Bitmap.isSet_tertiary _ _ _ (by omega) hf2]
            exact isSetInBitmap_setInBitmap_self (by omega) (by omega) hrep
          · rw [Bitmap.isSet_le64 _ _ _ (by omega) (by omega)]
            exact hp1
          · rw [Bitmap.isSet_secondary _ _ _ (by omega) (by omega)]
            exact isSetInBitmap_setInBitmap_self (by omega) (by omega) hs8
        | some t =>
          have ht8 : t.length = 8 := by simpa using hter
          have hs1 : isSetInBitmap s 1 = true := hc2
          refine ⟨_, Bitmap.set_arm129_some_some p s t (by omega) hf2, ?_,
            fun h => absurd h.2 (by omega), fun _ => ⟨?_, ?_⟩⟩
          · rw [Bitmap.isSet_tertiary _ _ _ (by omega) hf2]
            exact isSetInBitmap_setInBitmap_self (by omega) (by omega) ht8
          · rw [Bitmap.isSet_le64 _ _ _ (by omega) (by omega)]
            exact hp1
          · rw [Bitmap.isSet_secondary _ _ _ (by omega) (by omega)]
            exact hs1
  · intro h
    simp only [Bitmap.set]
    rw [if_pos (by omega)]

/-- Witness for the amended C7: applying it to the fresh bitmap and field 70
shows the cascade concretely. -/
theorem C7_cascade_witness :
    Bitmap.new.wfB = true ∧ Bitmap.new.consistentB = true ∧
    ∃ b', Bitmap.new.set 70 = .ok b' ∧ b'.isSet 70 = true ∧ b'.isSet 1 = true := by
  refine ⟨by decide, by decide, ?_⟩
  obtain ⟨h, -⟩ := C7_bitmap_set_cascade Bitmap.new 70 (by decide) (by decide)
  obtain ⟨b', hset, hf, hcasc, -⟩ := h (by omega)
  exact ⟨b', hset, hf, hcasc (by omega)⟩

/-- ASCII decimal digit test on a byte (`char::is_ascii_digit`). -/
def isAsciiDigit (b : Nat) : Bool := 0x30 ≤ b && b ≤ 0x39

/-- The digit-pair packing loop of `encode_bcd` (`chunks(2)` over the
padded, hence even-length, digit string; the one-element-chunk fallback is
unreachable for even input). -/
def bcdPack : List Nat → List Nat
  | c1 :: c2 :: rest => (((c1 - 0x30) <<< 4) ||| (c2 - 0x30)) :: bcdPack rest
  | _ => []

/-- `encode_bcd` of `encoding.rs`: all characters must be ASCII digits;
odd-length input is left-padded with one `'0'` before packing. -/
def encode_bcd (s : List Nat) : Except Err (List Nat) :=
  if s.all isAsciiDigit then
    .ok (bcdPack (if s.length % 2 ≠ 0 then 0x30 :: s else s))
  else .error .EncodingError

/-- The byte loop of `decode_bcd`, including the early `break` once
`length` digits have been produced. -/
def decodeBcdLoop : List Nat → Nat → List Nat → Except Err (List Nat)
  | [], _, acc => .ok acc
  | b :: rest, length, acc =>
    let hi := (b >>> 4) &&& 0xF
    let lo := b &&& 0xF
    if hi > 9 ∨ lo > 9 then .error .EncodingError
    else
      let acc2 := acc ++ [0x30 + hi, 0x30 + lo]
      if acc2.length ≥ length then .ok acc2
      else decodeBcdLoop rest length acc2

/-- `decode_bcd` of `encoding.rs`: the loop above followed by
`truncate(length)`. -/
def decode_bcd (bytes : List Nat) (length : Nat) : Except Err (List Nat) :=
  (decodeBcdLoop bytes length []).map (fun r => r.take length)

/-- Nibble extraction undoes the packing for digit values. -/
theorem nibble_extract :
    ∀ h, h < 10 → ∀ l, l < 10 →
      (((h <<< 4) ||| l) >>> 4) &&& 0xF = h ∧ ((h <<< 4) ||| l) &&& 0xF = l := by
  decide

/-- Decoding the packed bytes of an even digit string appends exactly those
digits, as long as the requested digit count makes the final break fall on
the last byte (which is the case for count `|t|` or `|t| - 1`). -/
theorem decodeBcdLoop_bcdPack :
    ∀ (t acc : List Nat) (L : Nat), t.all isAsciiDigit = true → t.length % 2 = 0 →
      (acc.length + t.length = L ∨ acc.length + t.length = L + 1) →
      decodeBcdLoop (bcdPack t) L acc = .ok (acc ++ t)
  | [], acc, L, _, _, hlen => by
      simp [bcdPack, decodeBcdLoop]
  | [c], acc, L, hd, hev, hlen => by
      simp at hev
  | c1 :: c2 :: rest, acc, L, hd, hev, hlen => by
      simp only [List.all_cons, Bool.and_eq_true] at hd
      obtain ⟨hd1, hd2, hd3⟩ := hd
      simp only [isAsciiDigit, Bool.and_eq_true, decide_eq_true_eq] at hd1 hd2
      have hrev : rest.length % 2 = 0 := by
        simp only [List.length_cons] at hev; omega
      have hnib := nibble_extract (c1 - 0x30) (by omega) (c2 - 0x30) (by omega)
      show decodeBcdLoop ((((c1 - 0x30) <<< 4) ||| (c2 - 0x30)) :: bcdPack rest) L acc
        = .ok (acc ++ (c1 :: c2 :: rest))
      simp only [decodeBcdLoop, hnib.1, hnib.2]
      rw [if_neg (by omega)]
      have hchars : 0x30 + (c1 - 0x30) = c1 ∧ 0x30 + (c2 - 0x30) = c2 := by omega
      rw [hchars.1, hchars.2]
      by_cases hbrk : (acc ++ [c1, c2]).length ≥ L
      · rw [if_pos hbrk]
        have hlc : (acc ++ [c1, c2]).length = acc.length + 2 := by simp
        have hrest0 : rest.length = 0 := by
          simp only [List.length_cons] at hlen
          omega
        have : rest = [] := List.length_eq_zero.mp hrest0
        subst this
        simp
      · rw [if_neg hbrk]
        have := decodeBcdLoop_bcdPack rest (acc ++ [c1, c2]) L hd3 hrev (by
          simp only [List.length_append, List.length_cons] at hlen ⊢
          simp only [List.length_cons, List.length_nil]
          omega)
        rw [this]
        simp

/-- C9: BCD round-trip.  For any string of ASCII decimal digits,
`decode_bcd(encode_bcd(s), len(s))` returns `s` when the length is even,
and the first `len(s)` digits of `'0'`-left-padded `s` when it is odd. -/
theorem C9_bcd_roundtrip (s : List Nat) (hdig : s.all isAsciiDigit = true) :
    ∃ bs, encode_bcd s = .ok bs ∧
      decode_bcd bs s.length =
        .ok (if s.length % 2 = 0 then s else (0x30 :: s).take s.length) := by
  refine ⟨bcdPack (if s.length % 2 ≠ 0 then 0x30 :: s else s), ?_, ?_⟩
  · simp only [encode_bcd, hdig, if_pos]
  · by_cases hev : s.length % 2 = 0
    · rw [if_pos hev]
      have h := decodeBcdLoop_bcdPack s [] s.length hdig hev (by simp)
      rw [if_neg (by omega)]
      simp [decode_bcd, h, Except.map, List.take_length]
    · rw [if_neg hev]
      have hpad : (0x30 :: s).all isAsciiDigit = true := by
        simp [hdig, isAsciiDigit]
      have hpev : (0x30 :: s).length % 2 = 0 := by
        simp only [List.length_cons]; omega
      have h := decodeBcdLoop_bcdPack (0x30 :: s) [] s.length hpad hpev (by
        simp only [List.length_nil, List.length_cons]; omega)
      rw [if_pos (by omega)]
      simp [decode_bcd, h, Except.map]

/-- Witness for C9 at the odd-length digit string "123": the encoding packs
to `[0x01, 0x23]` and decoding three digits yields "012". -/
theorem C9_bcd_roundtrip_witness :
    ∃ bs, encode_bcd [0x31, 0x32, 0x33] = .ok bs ∧
      decode_bcd bs 3 = .ok [0x30, 0x31, 0x32] := by
  obtain ⟨bs, h1, h2⟩ := C9_bcd_roundtrip [0x31, 0x32, 0x33] (by decide)
  refine ⟨bs, h1, ?_⟩
  simpa using h2

/-- UTF-8 validation automaton: `rem` continuation bytes still expected,
the next one constrained to `[lo, hi]`, later ones to `[0x80, 0xBF]`.
Encodes the standard table (overlong forms and surrogates rejected), which
is what Rust `str::from_utf8` checks. -/
def utf8Fold : List Nat → Nat → Nat → Nat → Bool
  | [], rem, _, _ => rem == 0
  | b :: rest, 0, _, _ =>
    if b < 0x80 then utf8Fold rest 0 0 0
    else if 0xC2 ≤ b ∧ b ≤ 0xDF then utf8Fold rest 1 0x80 0xBF
    else if b = 0xE0 then utf8Fold rest 2 0xA0 0xBF
    else if (0xE1 ≤ b ∧ b ≤ 0xEC) ∨ b = 0xEE ∨ b = 0xEF then utf8Fold rest 2 0x80 0xBF
    else if b = 0xED then utf8Fold rest 2 0x80 0x9F
    else if b = 0xF0 then utf8Fold rest 3 0x90 0xBF
    else if 0xF1 ≤ b ∧ b ≤ 0xF3 then utf8Fold rest 3 0x80 0xBF
    else if b = 0xF4 then utf8Fold rest 3 0x80 0x8F
    else false
  | b :: rest, rem + 1, lo, hi =>
    if lo ≤ b ∧ b ≤ hi then utf8Fold rest rem 0x80 0xBF else false

/-- `str::from_utf8` succeeds on exactly these byte sequences. -/
def isValidUtf8 (bs : List Nat) : Bool := utf8Fold bs 0 0 0

/-- Pure-ASCII byte sequences are valid UTF-8. -/
theorem isValidUtf8_of_ascii :
    ∀ bs : List Nat, (∀ b ∈ bs, b < 0x80) → isValidUtf8 bs = true := by
  have h : ∀ bs : List Nat, (∀ b ∈ bs, b < 0x80) → utf8Fold bs 0 0 0 = true := by
    intro bs
    induction bs with
    | nil => intro _; rfl
    | cons b rest ih =>
      intro hb
      have hblt : b < 0x80 := hb b (List.mem_cons_self b rest)
      simp only [utf8Fold, if_pos hblt]
      exact ih (fun x hx => hb x (List.mem_cons_of_mem b hx))
  intro bs hb
  exact h bs hb

/-- Message class (`mti.rs` `MessageClass`). -/
inductive MessageClass where
  | Reserved
  | Authorization
  | Financial
  | FileActions
  | Reversal
  | Reconciliation
  | Administrative
  | FeeCollection
  | NetworkManagement
  | ReservedISO
  deriving DecidableEq, Repr

/-- `MessageClass::from_digit`. -/
def MessageClass.fromDigit : Nat → Except Err MessageClass
  | 0 => .ok .Reserved
  | 1 => .ok .Authorization
  | 2 => .ok .Financial
  | 3 => .ok .FileActions
  | 4 => .ok .Reversal
  | 5 => .ok .Reconciliation
  | 6 => .ok .Administrative
  | 7 => .ok .FeeCollection
  | 8 => .ok .NetworkManagement
  | 9 => .ok .ReservedISO
  | _ => .error .InvalidMessageClass

/-- `MessageClass::to_digit`. -/
def MessageClass.toDigit : MessageClass → Nat
  | .Reserved => 0
  | .Authorization => 1
  | .Financial => 2
  | .FileActions => 3
  | .Reversal => 4
  | .Reconciliation => 5
  | .Administrative => 6
  | .FeeCollection => 7
  | .NetworkManagement => 8
  | .ReservedISO => 9

/-- Message function (`mti.rs` `MessageFunction`). -/
inductive MessageFunction where
  | Request
  | Response
  | Advice
  | AdviceResponse
  | Notification
  | NotificationAck
  | Instruction
  | InstructionAck
  | Reserved8
  | Reserved9
  deriving DecidableEq, Repr

/-- `MessageFunction::from_digit`. -/
def MessageFunction.fromDigit : Nat → Except Err MessageFunction
  | 0 => .ok .Request
  | 1 => .ok .Response
  | 2 => .ok .Advice
  | 3 => .ok .AdviceResponse
  | 4 => .ok .Notification
  | 5 => .ok .NotificationAck
  | 6 => .ok .Instruction
  | 7 => .ok .InstructionAck
  | 8 => .ok .Reserved8
  | 9 => .ok .Reserved9
  | _ => .error .InvalidMessageFunction

/-- `MessageFunction::to_digit`. -/
def MessageFunction.toDigit : MessageFunction → Nat
  | .Request => 0
  | .Response => 1
  | .Advice => 2
  | .AdviceResponse => 3
  | .Notification => 4
  | .NotificationAck => 5
  | .Instruction => 6
  | .InstructionAck => 7
  | .Reserved8 => 8
  | .Reserved9 => 9

/-- Message origin (`mti.rs` `MessageOrigin`). -/
inductive MessageOrigin where
  | Acquirer
  | AcquirerRepeat
  | Issuer
  | IssuerRepeat
  | Other
  | OtherRepeat
  | Reserved6
  | Reserved7
  | Reserved8
  | Reserved9
  deriving DecidableEq, Repr

/-- `MessageOrigin::from_digit`. -/
def MessageOrigin.fromDigit : Nat → Except Err MessageOrigin
  | 0 => .ok .Acquirer
  | 1 => .ok .AcquirerRepeat
  | 2 => .ok .Issuer
  | 3 => .ok .IssuerRepeat
  | 4 => .ok .Other
  | 5 => .ok .OtherRepeat
  | 6 => .ok .Reserved6
  | 7 => .ok .Reserved7
  | 8 => .ok .Reserved8
  | 9 => .ok .Reserved9
  | _ => .error .InvalidMessageOrigin

/-- `MessageOrigin::to_digit`. -/
def MessageOrigin.toDigit : MessageOrigin → Nat
  | .Acquirer => 0
  | .AcquirerRepeat => 1
  | .Issuer => 2
  | .IssuerRepeat => 3
  | .Other => 4
  | .OtherRepeat => 5
  | .Reserved6 => 6
  | .Reserved7 => 7
  | .Reserved8 => 8
  | .Reserved9 => 9

/-- Message Type Indicator (`mti.rs` `MessageType`); the `class` field is
renamed `mclass` and `function` is renamed `mfunction` (Lean keyword
avoidance). -/
structure MessageType where
  version : Nat
  mclass : MessageClass
  mfunction : MessageFunction
  origin : MessageOrigin
  deriving DecidableEq, Repr

/-- `MessageType::AUTHORIZATION_REQUEST` (MTI 0100). -/
def MessageType.AUTHORIZATION_REQUEST : MessageType :=
  ⟨0, .Authorization, .Request, .Acquirer⟩

/-- `MessageType::NETWORK_MANAGEMENT_REQUEST` (MTI 0800). -/
def MessageType.NETWORK_MANAGEMENT_REQUEST : MessageType :=
  ⟨0, .NetworkManagement, .Request, .Acquirer⟩

/-- One character of `char::to_digit(10)` on a byte of the (already
UTF-8-checked) MTI string; a non-digit fails with `InvalidMTI` exactly like
the Rust digit collection (a multi-byte character's leading byte is never an
ASCII digit, so it also fails there). -/
def mtiDigit (b : Nat) : Except Err Nat :=
  if 0x30 ≤ b ∧ b ≤ 0x39 then .ok (b - 0x30) else .error .InvalidMTI

/-- `MessageType::from_str`, on the UTF-8 bytes of the argument (the byte
length check is `s.len() != 4`). -/
def MessageType.fromStr (s : List Nat) : Except Err MessageType :=
  match s with
  | [a, b, c, d] => do
    let v ← mtiDigit a
    let cd ← mtiDigit b
    let fd ← mtiDigit c
    let od ← mtiDigit d
    let mc ← MessageClass.fromDigit cd
    let mf ← MessageFunction.fromDigit fd
    let mo ← MessageOrigin.fromDigit od
    .ok ⟨v, mc, mf, mo⟩
  | _ => .error .InvalidMTI

/-- `MessageType::from_bytes`: at least 4 bytes, the first 4 must be valid
UTF-8, then `from_str`. -/
def MessageType.fromBytes (bytes : List Nat) : Except Err MessageType :=
  if bytes.length < 4 then .error .InvalidMTI
  else if isValidUtf8 (bytes.take 4) then MessageType.fromStr (bytes.take 4)
  else .error .InvalidMTI

/-- Decimal rendering of a `Nat` (ASCII bytes), with fuel for structural
recursion; `natDecimal` below always supplies enough fuel. -/
def natDecimalAux : Nat → Nat → List Nat
  | 0, _ => []
  | fuel + 1, n =>
    if n < 10 then [0x30 + n]
    else natDecimalAux fuel (n / 10) ++ [0x30 + n % 10]

/-- Decimal rendering of a `Nat` as ASCII bytes (Rust `format!("{}", n)`). -/
def natDecimal (n : Nat) : List Nat := natDecimalAux (n + 1) n

/-- `MessageType::to_string` / `to_bytes`: the four positions rendered in
decimal and concatenated (a version above 9 renders as more than one
character, exactly as Rust `format!` does). -/
def MessageType.toBytes (m : MessageType) : List Nat :=
  natDecimal m.version ++ natDecimal m.mclass.toDigit ++
    natDecimal m.mfunction.toDigit ++ natDecimal m.origin.toDigit

/-- `MessageType::is_request`. -/
def MessageType.isRequest (m : MessageType) : Bool :=
  match m.mfunction with
  | .Request => true
  | _ => false

/-- `MessageType::is_response`. -/
def MessageType.isResponse (m : MessageType) : Bool :=
  match m.mfunction with
  | .Response => true
  | _ => false

/-- Field value (`field.rs` `FieldValue`): a `String` is represented by its
UTF-8 bytes, a `Binary` by its bytes. -/
inductive FieldValue where
  | str (s : List Nat)
  | bin (b : List Nat)
  deriving DecidableEq, Repr

/-- `HashMap::get` on the association-list model of the field map. -/
def mapGet (m : List (Nat × FieldValue)) (k : Nat) : Option FieldValue :=
  match m.find? (fun p => p.1 == k) with
  | some p => some p.2
  | none => none

/-- `HashMap::insert` on the association-list model (replaces an existing
binding). -/
def mapInsert (m : List (Nat × FieldValue)) (k : Nat) (v : FieldValue) :
    List (Nat × FieldValue) :=
  (k, v) :: m.filter (fun p => !(p.1 == k))

/-- `HashMap::remove` on the association-list model. -/
def mapRemove (m : List (Nat × FieldValue)) (k : Nat) : List (Nat × FieldValue) :=
  m.filter (fun p => !(p.1 == k))

/-- `HashMap::keys` on the association-list model (unordered; `to_bytes`
sorts them). -/
def mapKeys (m : List (Nat × FieldValue)) : List Nat := m.map Prod.fst

/-- `usize::from_str` on a short ASCII byte string: an optional leading
`'+'` followed by one or more decimal digits (the 2- and 3-digit length
prefixes parsed here cannot overflow). -/
def parseUsize (s : List Nat) : Option Nat :=
  let t := match s with
    | 0x2B :: rest => rest
    | _ => s
  if t ≠ [] ∧ t.all isAsciiDigit then
    some (t.foldl (fun acc d => acc * 10 + (d - 0x30)) 0)
  else none

/-- `ISO8583Message::parse_field` of `message.rs`, in the panic-tracking
monad.  The slice expressions are those of the source; each is guarded by
the source's own bounds checks. -/
def parseField (bytes : List Nat) (d : FieldDefinition) : Except PError (FieldValue × Nat) :=
  if bytes.length = 0 then .error (.err (.MessageTooShort 1 0))
  else
    match d.length with
    | .Fixed len =>
      if bytes.length < len then
        .error (.err (.FieldLengthMismatch d.number len bytes.length))
      else
        match slice bytes 0 len with
        | .error e => .error e
        | .ok v =>
          match d.field_type with
          | .Binary => .ok (.bin v, len)
          | _ =>
            if isValidUtf8 v then .ok (.str v, len)
            else .error (.err .EncodingError)
    | .LLVar maxLen =>
      if bytes.length < 2 then .error (.err (.MessageTooShort 2 bytes.length))
      else
        match slice bytes 0 2 with
        | .error e => .error e
        | .ok p =>
          if isValidUtf8 p then
            match parseUsize p with
            | some length =>
              if length > maxLen then .error (.err (.InvalidFieldValue d.number))
              else if bytes.length < 2 + length then
                .error (.err (.MessageTooShort (2 + length) bytes.length))
              else
                match slice bytes 2 (2 + length) with
                | .error e => .error e
                | .ok v =>
                  match d.field_type with
                  | .Binary => .ok (.bin v, 2 + length)
                  | _ =>
                    if isValidUtf8 v then .ok (.str v, 2 + length)
                    else .error (.err .EncodingError)
            | none => .error (.err .EncodingError)
          else .error (.err .EncodingError)
    | .LLLVar maxLen =>
      if bytes.length < 3 then .error (.err (.MessageTooShort 3 bytes.length))
      else
        match slice bytes 0 3 with
        | .error e => .error e
        | .ok p =>
          if isValidUtf8 p then
            match parseUsize p with
            | some length =>
              if length > maxLen then .error (.err (.InvalidFieldValue d.number))
              else if bytes.length < 3 + length then
                .error (.err (.MessageTooShort (3 + length) bytes.length))
              else
                match slice bytes 3 (3 + length) with
                | .error e => .error e
                | .ok v =>
                  match d.field_type with
                  | .Binary => .ok (.bin v, 3 + length)
                  | _ =>
                    if isValidUtf8 v then .ok (.str v, 3 + length)
                    else .error (.err .EncodingError)
            | none => .error (.err .EncodingError)
          else .error (.err .EncodingError)

/-- `str::chars().count()` on the byte representation of a valid UTF-8
string: the number of non-continuation bytes. -/
def charCount (s : List Nat) : Nat :=
  (s.filter (fun b => !(0x80 ≤ b && b ≤ 0xBF))).length

/-- Rust `format!` width padding: pad to `w` characters on the chosen side
only when the rendered text has fewer than `w` characters. -/
def padWidthZeros (w : Nat) (ds : List Nat) : List Nat :=
  if ds.length < w then List.replicate (w - ds.length) 0x30 ++ ds else ds

/-- `ISO8583Message::generate_field` of `message.rs`.  `String::truncate`
is modelled as a byte `take`; on values that would cut a multi-byte
character the Rust code panics instead, a case no settled claim exercises
(all values involved are ASCII). -/
def generateField (d : FieldDefinition) (v : FieldValue) : List Nat :=
  match d.length with
  | .Fixed len =>
    match v with
    | .str s =>
      if s.length < len then
        match d.field_type with
        | .Numeric =>
          if charCount s < len then List.replicate (len - charCount s) 0x30 ++ s else s
        | _ =>
          if charCount s < len then s ++ List.replicate (len - charCount s) 0x20 else s
      else if s.length > len then s.take len
      else s
    | .bin b => b.take len ++ List.replicate (len - b.length) 0
  | .LLVar _ =>
    match v with
    | .str s => padWidthZeros 2 (natDecimal s.length) ++ s
    | .bin b => padWidthZeros 2 (natDecimal b.length) ++ b
  | .LLLVar _ =>
    match v with
    | .str s => padWidthZeros 3 (natDecimal s.length) ++ s
    | .bin b => padWidthZeros 3 (natDecimal b.length) ++ b

/-- The message type of `message.rs` (`ISO8583Message`): MTI, field map
(modelled as an association list with unique keys) and bitmap. -/
structure ISO8583Message where
  mti : MessageType
  fields : List (Nat × FieldValue)
  bitmap : Bitmap
  deriving DecidableEq, Repr

/-- `ISO8583Message::new`. -/
def ISO8583Message.new (mti : MessageType) : ISO8583Message := ⟨mti, [], Bitmap.new⟩

/-- `ISO8583Message::set_field` (the `Field` argument is represented by its
number; the bitmap error converts to `Custom` through
`From<&'static str>`). -/
def ISO8583Message.setField (m : ISO8583Message) (fieldNum : Nat) (v : FieldValue) :
    Except Err ISO8583Message :=
  match m.bitmap.set fieldNum with
  | .ok bm => .ok { m with bitmap := bm, fields := mapInsert m.fields fieldNum v }
  | .error _ => .error .Custom

/-- `ISO8583Message::remove_field`. -/
def ISO8583Message.removeField (m : ISO8583Message) (fieldNum : Nat) :
    Except Err ISO8583Message :=
  match m.bitmap.clear fieldNum with
  | .ok bm => .ok { m with bitmap := bm, fields := mapRemove m.fields fieldNum }
  | .error _ => .error .Custom

/-- `ISO8583Message::get_field`. -/
def ISO8583Message.getField (m : ISO8583Message) (fieldNum : Nat) : Option FieldValue :=
  mapGet m.fields fieldNum

/-- `ISO8583Message::has_field`. -/
def ISO8583Message.hasField (m : ISO8583Message) (fieldNum : Nat) : Bool :=
  (mapGet m.fields fieldNum).isSome

/-- `ISO8583Message::to_bytes`: MTI bytes, then the bitmap bytes, then each
present field except 1 and 65 in ascending field-number order.  (The
source's `Field::from_number(field_num).unwrap()` can only be reached with
numbers in 1..=128, where it succeeds, because the map is keyed by the
`Field` enum.) -/
def ISO8583Message.toBytes (m : ISO8583Message) : List Nat :=
  m.mti.toBytes ++ m.bitmap.toBytes ++
    (((mapKeys m.fields).insertionSort (fun a b => a ≤ b)).filter
        (fun k => !(k == 1 || k == 65))).flatMap
      (fun k =>
        match mapGet m.fields k with
        | some v => generateField (fieldDefinition k) v
        | none => [])

/-- The secondary-bitmap merge loop of `ISO8583Message::from_bytes`
(`for field_num in 65..=128 { if secondary_bitmap.is_set(field_num) {
bitmap.set(field_num)?; } }`). -/
def mergeLoop (sec : Bitmap) : List Nat → Bitmap → Except Err Bitmap
  | [], bm => .ok bm
  | f :: rest, bm =>
    if sec.isSet f then
      match bm.set f with
      | .ok b2 => mergeLoop sec rest b2
      | .error _ => .error .Custom
    else mergeLoop sec rest bm

/-- The field loop of `ISO8583Message::from_bytes`: for every field number
reported by the bitmap, skipping 1 and 65, parse the field at the running
offset (`&bytes[offset..]` is a slice expression, hence runs in the
panic-tracking monad). -/
def parseFieldsLoop (bytes : List Nat) :
    List Nat → Nat → List (Nat × FieldValue) → Except PError (List (Nat × FieldValue))
  | [], _, fields => .ok fields
  | fnum :: rest, offset, fields =>
    if fnum = 1 ∨ fnum = 65 then parseFieldsLoop bytes rest offset fields
    else
      match Field.fromNumber fnum with
      | .error e => .error (.err e)
      | .ok _ =>
        match slice bytes offset bytes.length with
        | .error e => .error e
        | .ok restBytes =>
          match parseField restBytes (fieldDefinition fnum) with
          | .error e => .error e
          | .ok (v, consumed) =>
            parseFieldsLoop bytes rest (offset + consumed) (mapInsert fields fnum v)

/-- `ISO8583Message::from_bytes` of `message.rs`: length precheck, MTI from
the first 4 bytes, primary bitmap from the next 8 (via `hex::encode` /
`Bitmap::from_hex` as in the source), optional secondary block whose bits
are merged by `mergeLoop`, then the field loop. -/
def ISO8583Message.fromBytes (bytes : List Nat) : Except PError ISO8583Message :=
  if bytes.length < 12 then .error (.err (.MessageTooShort 12 bytes.length))
  else
    match slice bytes 0 4 with
    | .error e => .error e
    | .ok mtiB =>
      match MessageType.fromBytes mtiB with
      | .error e => .error (.err e)
      | .ok mti =>
        match slice bytes 4 12 with
        | .error e => .error e
        | .ok bmB =>
          match Bitmap.fromHex (hexEncode bmB) with
          | .error _ => .error (.err .Custom)
          | .ok bitmap0 =>
            match
              (if bitmap0.isSet 1 then
                if bytes.length < 12 + 8 then
                  .error (.err (.MessageTooShort (12 + 8) bytes.length))
                else
                  match slice bytes 12 20 with
                  | .error e => .error e
                  | .ok secB =>
                    match Bitmap.fromHex (hexEncode secB) with
                    | .error _ => .error (.err .Custom)
                    | .ok secondaryBitmap =>
                      match mergeLoop secondaryBitmap (List.range' 65 64) bitmap0 with
                      | .ok bm => .ok (bm, 20)
                      | .error e => .error (.err e)
              else .ok (bitmap0, 12) : Except PError (Bitmap × Nat))
            with
            | .error e => .error e
            | .ok (bitmap, offset) =>
              match parseFieldsLoop bytes bitmap.getSetFields offset [] with
              | .error e => .error e
              | .ok fields => .ok ⟨mti, fields, bitmap⟩

set_option maxRecDepth 8192 in
/-- C2: for a message in which field 70 is set, the serialized bitmap block
is indeed 16 bytes, and `from_bytes` of the serialized message reports
field 1 present and field 65 absent as claimed — but it reports field 70
ABSENT, refuting the claim: the secondary-merge loop of `from_bytes` asks
`secondary_bitmap.is_set(f)` for f in 65..=128 on a bitmap whose secondary
block is unallocated (the raw block bytes sit in its primary slot), so no
secondary field is ever merged. -/
theorem C2_field70_dropped_by_from_bytes :
    ∃ m : ISO8583Message,
      (ISO8583Message.new MessageType.NETWORK_MANAGEMENT_REQUEST).setField 70
          (.str [0x30, 0x30, 0x31]) = .ok m ∧
      m.bitmap.toBytes.length = 16 ∧
      ∃ p, ISO8583Message.fromBytes m.toBytes = .ok p ∧
        p.bitmap.isSet 1 = true ∧ p.bitmap.isSet 65 = false ∧
        p.bitmap.isSet 70 = false ∧ p.hasField 70 = false := by
  refine ⟨_, rfl, rfl, _, rfl, rfl, rfl, rfl, rfl⟩

set_option maxRecDepth 8192 in
/-- C4: during `from_bytes`, the 8 bytes after the primary bitmap are
required when bit 1 is set (that part holds), but their bits are NOT merged
as field numbers 65-128 (the merge loop always sees an unallocated
secondary block), and there is no tertiary handling at all: on a 20-byte
buffer whose secondary block has bit 65 set, the claim demands 8 further
bytes and a failure on their absence, yet parsing succeeds with bit 65
unset; on a buffer whose secondary block flags field 70, the claim demands
bit 70 in the running bitmap, yet it stays clear and no field is parsed. -/
theorem C4_secondary_merge_never_happens :
    (∃ m, ISO8583Message.fromBytes
        ([0x30, 0x38, 0x30, 0x30] ++ (0x80 :: List.replicate 7 0) ++
          (0x80 :: List.replicate 7 0)) = .ok m ∧
      m.bitmap.isSet 65 = false ∧ m.bitmap.secondary = none ∧ m.fields = []) ∧
    (∃ m2, ISO8583Message.fromBytes
        ([0x30, 0x38, 0x30, 0x30] ++ (0x80 :: List.replicate 7 0) ++
          (0x04 :: List.replicate 7 0)) = .ok m2 ∧
      m2.bitmap.isSet 70 = false ∧ m2.fields = []) := by
  exact ⟨⟨_, rfl, rfl, rfl, rfl⟩, ⟨_, rfl, rfl, rfl⟩⟩

/-- The value/consumed tail of `parse_field` on a success only ever reports
the branch's own consumed count. -/
theorem parseTail_ok_consumed (ft : FieldType) (bs : List Nat) (c : Nat)
    (v : FieldValue) (n : Nat)
    (h : (match ft with
          | .Binary => (.ok (.bin bs, c) : Except PError (FieldValue × Nat))
          | _ => if isValidUtf8 bs then .ok (.str bs, c)
                 else .error (.err .EncodingError)) = .ok (v, n)) :
    n = c := by
  cases ft <;> try split_ifs at h
  all_goals
    first
      | (simp only [Except.ok.injEq, Prod.mk.injEq] at h; exact h.2.symm)
      | exact absurd h (by simp)

/-- C6, LLVAR case worker. -/
theorem parseField_llvar_checks (bytes : List Nat) (num : Nat) (ft : FieldType)
    (maxLen : Nat) :
    (∀ v n, parseField bytes ⟨num, ft, .LLVar maxLen⟩ = .ok (v, n) →
      ∃ L, parseUsize (bytes.take 2) = some L ∧ L ≤ maxLen ∧
        2 + L ≤ bytes.length ∧ n = 2 + L) ∧
    (∀ L, parseUsize (bytes.take 2) = some L → maxLen < L →
      ∃ e, parseField bytes ⟨num, ft, .LLVar maxLen⟩ = .error (.err e)) ∧
    (∀ L, parseUsize (bytes.take 2) = some L → bytes.length < 2 + L →
      ∃ e, parseField bytes ⟨num, ft, .LLVar maxLen⟩ = .error (.err e)) ∧
    (2 ≤ bytes.length → parseUsize (bytes.take 2) = none →
      ∃ e, parseField bytes ⟨num, ft, .LLVar maxLen⟩ = .error (.err e)) := by
  by_cases h0 : bytes.length = 0
  · have hbe : bytes = [] := List.length_eq_zero.mp h0
    subst hbe
    refine ⟨?_, ?_, ?_, ?_⟩
    · intro v n hok
      simp only [parseField, if_pos rfl] at hok
      exact absurd hok (by simp)
    · intro L hL _
      exact absurd hL (by simp [parseUsize])
    · intro L hL _
      exact absurd hL (by simp [parseUsize])
    · intro hple _
      exact absurd hple (by simp)
  by_cases h2 : bytes.length < 2
  · have herr : parseField bytes ⟨num, ft, .LLVar maxLen⟩ =
        .error (.err (.MessageTooShort 2 bytes.length)) := by
      simp only [parseField, if_neg h0, if_pos h2]
    refine ⟨?_, fun _ _ _ => ⟨_, herr⟩, fun _ _ _ => ⟨_, herr⟩,
      fun h _ => absurd h (by omega)⟩
    intro v n hok
    rw [herr] at hok
    exact absurd hok (by simp)
  have hslice : slice bytes 0 2 = .ok (bytes.take 2) := by
    have := @slice_ok bytes 0 2 (by omega) (by omega)
    simpa using this
  have hred : parseField bytes ⟨num, ft, .LLVar maxLen⟩ =
      (if isValidUtf8 (bytes.take 2) then
        match parseUsize (bytes.take 2) with
        | some length =>
          if length > maxLen then .error (.err (.InvalidFieldValue num))
          else if bytes.length < 2 + length then
            .error (.err (.MessageTooShort (2 + length) bytes.length))
          else
            match slice bytes 2 (2 + length) with
            | .error e => .error e
            | .ok v =>
              match ft with
              | .Binary => .ok (.bin v, 2 + length)
              | _ =>
                if isValidUtf8 v then .ok (.str v, 2 + length)
                else .error (.err .EncodingError)
        | none => .error (.err .EncodingError)
      else .error (.err .EncodingError)) := by
    simp only [parseField, if_neg h0, if_neg h2, hslice]
  by_cases hutf : isValidUtf8 (bytes.take 2) = true
  rotate_left
  · have herr : parseField bytes ⟨num, ft, .LLVar maxLen⟩ =
        .error (.err .EncodingError) := by
      rw [hred, if_neg hutf]
    refine ⟨?_, fun _ _ _ => ⟨_, herr⟩, fun _ _ _ => ⟨_, herr⟩, fun _ _ => ⟨_, herr⟩⟩
    intro v n hok
    rw [herr] at hok
    exact absurd hok (by simp)
  rw [if_pos hutf] at hred
  cases hpu : parseUsize (bytes.take 2) with
  | none =>
    simp only [hpu] at hred
    refine ⟨?_, ?_, ?_, fun _ _ => ⟨_, hred⟩⟩
    · intro v n hok
      rw [hred] at hok
      exact absurd hok (by simp)
    · intro L hL
      exact absurd hL (by simp)
    · intro L hL
      exact absurd hL (by simp)
  | some L =>
    simp only [hpu] at hred
    by_cases hmax : L > maxLen
    · rw [if_pos hmax] at hred
      refine ⟨?_, ?_, ?_, ?_⟩
      · intro v n hok
        rw [hred] at hok
        exact absurd hok (by simp)
      · intro L2 hL2 _
        exact ⟨_, hred⟩
      · intro L2 hL2 _
        exact ⟨_, hred⟩
      · intro _ hnone
        exact absurd hnone (by simp)
    rw [if_neg hmax] at hred
    by_cases hrem : bytes.length < 2 + L
    · rw [if_pos hrem] at hred
      refine ⟨?_, ?_, ?_, ?_⟩
      · intro v n hok
        rw [hred] at hok
        exact absurd hok (by simp)
      · intro L2 hL2 hmax2
        cases hL2
        exact absurd hmax2 (by omega)
      · intro L2 hL2 _
        exact ⟨_, hred⟩
      · intro _ hnone
        exact absurd hnone (by simp)
    · rw [if_neg hrem,
          @slice_ok bytes 2 (2 + L) (by omega) (by omega)] at hred
      refine ⟨?_, ?_, ?_, ?_⟩
      · intro v n hok
        rw [hred] at hok
        exact ⟨L, rfl, by omega, by omega, parseTail_ok_consumed ft _ _ v n hok⟩
      · intro L2 hL2 hmax2
        cases hL2
        exact absurd hmax2 (by omega)
      · intro L2 hL2 hrem2
        cases hL2
        exact absurd hrem2 (by omega)
      · intro _ hnone
        exact absurd hnone (by simp)

/-- C6, LLLVAR case worker. -/
theorem parseField_lllvar_checks (bytes : List Nat) (num : Nat) (ft : FieldType)
    (maxLen : Nat) :
    (∀ v n, parseField bytes ⟨num, ft, .LLLVar maxLen⟩ = .ok (v, n) →
      ∃ L, parseUsize (bytes.take 3) = some L ∧ L ≤ maxLen ∧
        3 + L ≤ bytes.length ∧ n = 3 + L) ∧
    (∀ L, parseUsize (bytes.take 3) = some L → maxLen < L →
      ∃ e, parseField bytes ⟨num, ft, .LLLVar maxLen⟩ = .error (.err e)) ∧
    (∀ L, parseUsize (bytes.take 3) = some L → bytes.length < 3 + L →
      ∃ e, parseField bytes ⟨num, ft, .LLLVar maxLen⟩ = .error (.err e)) ∧
    (3 ≤ bytes.length → parseUsize (bytes.take 3) = none →
      ∃ e, parseField bytes ⟨num, ft, .LLLVar maxLen⟩ = .error (.err e)) := by
  by_cases h0 : bytes.length = 0
  · have hbe : bytes = [] := List.length_eq_zero.mp h0
    subst hbe
    refine ⟨?_, ?_, ?_, ?_⟩
    · intro v n hok
      simp only [parseField, if_pos rfl] at hok
      exact absurd hok (by simp)
    · intro L hL _
      exact absurd hL (by simp [parseUsize])
    · intro L hL _
      exact absurd hL (by simp [parseUsize])
    · intro hple _
      exact absurd hple (by simp)
  by_cases h2 : bytes.length < 3
  · have herr : parseField bytes ⟨num, ft, .LLLVar maxLen⟩ =
        .error (.err (.MessageTooShort 3 bytes.length)) := by
      simp only [parseField, if_neg h0, if_pos h2]
    refine ⟨?_, fun _ _ _ => ⟨_, herr⟩, fun _ _ _ => ⟨_, herr⟩,
      fun h _ => absurd h (by omega)⟩
    intro v n hok
    rw [herr] at hok
    exact absurd hok (by simp)
  have hslice : slice bytes 0 3 = .ok (bytes.take 3) := by
    have := @slice_ok bytes 0 3 (by omega) (by omega)
    simpa using this
  have hred : parseField bytes ⟨num, ft, .LLLVar maxLen⟩ =
      (if isValidUtf8 (bytes.take 3) then
        match parseUsize (bytes.take 3) with
        | some length =>
          if length > maxLen then .error (.err (.InvalidFieldValue num))
          else if bytes.length < 3 + length then
            .error (.err (.MessageTooShort (3 + length) bytes.length))
          else
            match slice bytes 3 (3 + length) with
            | .error e => .error e
            | .ok v =>
              match ft with
              | .Binary => .ok (.bin v, 3 + length)
              | _ =>
                if isValidUtf8 v then .ok (.str v, 3 + length)
                else .error (.err .EncodingError)
        | none => .error (.err .EncodingError)
      else .error (.err .EncodingError)) := by
    simp only [parseField, if_neg h0, if_neg h2, hslice]
  by_cases hutf : isValidUtf8 (bytes.take 3) = true
  rotate_left
  · have herr : parseField bytes ⟨num, ft, .LLLVar maxLen⟩ =
        .error (.err .EncodingError) := by
      rw [hred, if_neg hutf]
    refine ⟨?_, fun _ _ _ => ⟨_, herr⟩, fun _ _ _ => ⟨_, herr⟩, fun _ _ => ⟨_, herr⟩⟩
    intro v n hok
    rw [herr] at hok
    exact absurd hok (by simp)
  rw [if_pos hutf] at hred
  cases hpu : parseUsize (bytes.take 3) with
  | none =>
    simp only [hpu] at hred
    refine ⟨?_, ?_, ?_, fun _ _ => ⟨_, hred⟩⟩
    · intro v n hok
      rw [hred] at hok
      exact absurd hok (by simp)
    · intro L hL
      exact absurd hL (by simp)
    · intro L hL
      exact absurd hL (by simp)
  | some L =>
    simp only [hpu] at hred
    by_cases hmax : L > maxLen
    · rw [if_pos hmax] at hred
      refine ⟨?_, ?_, ?_, ?_⟩
      · intro v n hok
        rw [hred] at hok
        exact absurd hok (by simp)
      · intro L2 hL2 _
        exact ⟨_, hred⟩
      · intro L2 hL2 _
        exact ⟨_, hred⟩
      · intro _ hnone
        exact absurd hnone (by simp)
    rw [if_neg hmax] at hred
    by_cases hrem : bytes.length < 3 + L
    · rw [if_pos hrem] at hred
      refine ⟨?_, ?_, ?_, ?_⟩
      · intro v n hok
        rw [hred] at hok
        exact absurd hok (by simp)
      · intro L2 hL2 hmax2
        cases hL2
        exact absurd hmax2 (by omega)
      · intro L2 hL2 _
        exact ⟨_, hred⟩
      · intro _ hnone
        exact absurd hnone (by simp)
    · rw [if_neg hrem,
          @slice_ok bytes 3 (3 + L) (by omega) (by omega)] at hred
      refine ⟨?_, ?_, ?_, ?_⟩
      · intro v n hok
        rw [hred] at hok
        exact ⟨L, rfl, by omega, by omega, parseTail_ok_consumed ft _ _ v n hok⟩
      · intro L2 hL2 hmax2
        cases hL2
        exact absurd hmax2 (by omega)
      · intro L2 hL2 hrem2
        cases hL2
        exact absurd hrem2 (by omega)
      · intro _ hnone
        exact absurd hnone (by simp)


/-- C6: when parsing an LLVAR or LLLVAR field, if the decoded decimal
length prefix exceeds the definition's maximum length, or exceeds the bytes
remaining, or does not parse as a non-negative integer, parsing fails with
a typed error; otherwise exactly prefix-length + declared-length bytes are
consumed. -/
theorem C6_llvar_length_checks (bytes : List Nat) (num : Nat) (ft : FieldType)
    (maxLen pl : Nat) (d : FieldDefinition)
    (hd : d = ⟨num, ft, .LLVar maxLen⟩ ∧ pl = 2 ∨ d = ⟨num, ft, .LLLVar maxLen⟩ ∧ pl = 3) :
    (∀ v n, parseField bytes d = .ok (v, n) →
      ∃ L, parseUsize (bytes.take pl) = some L ∧ L ≤ maxLen ∧
        pl + L ≤ bytes.length ∧ n = pl + L) ∧
    (∀ L, parseUsize (bytes.take pl) = some L → maxLen < L →
      ∃ e, parseField bytes d = .error (.err e)) ∧
    (∀ L, parseUsize (bytes.take pl) = some L → bytes.length < pl + L →
      ∃ e, parseField bytes d = .error (.err e)) ∧
    (pl ≤ bytes.length → parseUsize (bytes.take pl) = none →
      ∃ e, parseField bytes d = .error (.err e)) := by
  rcases hd with ⟨rfl, rfl⟩ | ⟨rfl, rfl⟩
  · exact parseField_llvar_checks bytes num ft maxLen
  · exact parseField_lllvar_checks bytes num ft maxLen

/-- Witness for C6: parsing the LLVAR PAN definition (field 2, max 19)
against the buffer "05abcde" consumes exactly 2 + 5 bytes. -/
theorem C6_llvar_length_checks_witness :
    ∃ L, parseUsize ([0x30, 0x35, 0x61, 0x62, 0x63, 0x64, 0x65].take 2) = some L ∧
      L ≤ 19 ∧ 2 + L ≤ 7 ∧ 7 = 2 + L := by
  have h := (C6_llvar_length_checks [0x30, 0x35, 0x61, 0x62, 0x63, 0x64, 0x65]
    2 .Numeric 19 2 ⟨2, .Numeric, .LLVar 19⟩ (Or.inl ⟨rfl, rfl⟩)).1
  have h2 := h (.str [0x61, 0x62, 0x63, 0x64, 0x65]) 7 (by rfl)
  simpa using h2

/-- The value/consumed tail of `parse_field` never panics. -/
theorem parseTail_no_panic (ft : FieldType) (bs : List Nat) (c : Nat) :
    (match ft with
     | .Binary => (.ok (.bin bs, c) : Except PError (FieldValue × Nat))
     | _ => if isValidUtf8 bs then .ok (.str bs, c)
            else .error (.err .EncodingError)) ≠ .error .panicked := by
  cases ft <;> try split_ifs
  all_goals simp

/-- `parse_field` never panics (all its slice expressions sit behind the
source's bounds checks) and, on success, never consumes more bytes than the
buffer holds. -/
theorem parseField_no_panic (bytes : List Nat) (d : FieldDefinition) :
    parseField bytes d ≠ .error .panicked ∧
    ∀ v n, parseField bytes d = .ok (v, n) → n ≤ bytes.length := by
  obtain ⟨num, ft, dl⟩ := d
  cases dl with
  | Fixed len =>
    simp only [parseField]
    split_ifs with h0 hlen
    · simp
    · simp
    · simp only [slice_ok (show (0:Nat) ≤ len by omega)
        (show len ≤ bytes.length by omega), List.drop_zero, Nat.sub_zero]
      refine ⟨parseTail_no_panic ft _ _, ?_⟩
      intro v n hok
      have := parseTail_ok_consumed ft _ _ v n hok
      omega
  | LLVar maxLen =>
    simp only [parseField]
    split_ifs with h0 h2
    · simp
    · simp
    · simp only [slice_ok (show (0:Nat) ≤ 2 by omega)
        (show 2 ≤ bytes.length by omega), List.drop_zero, Nat.sub_zero]
      split_ifs with hutf
      · cases hpu : parseUsize (bytes.take 2) with
        | none => simp
        | some L =>
          simp only []
          split_ifs with hmax hrem
          · simp
          · simp
          · simp only [slice_ok (show 2 ≤ 2 + L by omega)
              (show 2 + L ≤ bytes.length by omega)]
            refine ⟨parseTail_no_panic ft _ _, ?_⟩
            intro v n hok
            have := parseTail_ok_consumed ft _ _ v n hok
            omega
      · simp
  | LLLVar maxLen =>
    simp only [parseField]
    split_ifs with h0 h2
    · simp
    · simp
    · simp only [slice_ok (show (0:Nat) ≤ 3 by omega)
        (show 3 ≤ bytes.length by omega), List.drop_zero, Nat.sub_zero]
      split_ifs with hutf
      · cases hpu : parseUsize (bytes.take 3) with
        | none => simp
        | some L =>
          simp only []
          split_ifs with hmax hrem
          · simp
          · simp
          · simp only [slice_ok (show 3 ≤ 3 + L by omega)
              (show 3 + L ≤ bytes.length by omega)]
            refine ⟨parseTail_no_panic ft _ _, ?_⟩
            intro v n hok
            have := parseTail_ok_consumed ft _ _ v n hok
            omega
      · simp

/-- The field loop never panics while the running offset stays inside the
buffer; the offset stays inside because each parsed field consumes at most
the remaining bytes. -/
theorem parseFieldsLoop_no_panic (bytes : List Nat) :
    ∀ (ks : List Nat) (offset : Nat) (fields : List (Nat × FieldValue)),
      offset ≤ bytes.length →
      parseFieldsLoop bytes ks offset fields ≠ .error .panicked
  | [], offset, fields, hoff => by simp [parseFieldsLoop]
  | fnum :: rest, offset, fields, hoff => by
    simp only [parseFieldsLoop]
    split_ifs with hskip
    · exact parseFieldsLoop_no_panic bytes rest offset fields hoff
    · cases hfn : Field.fromNumber fnum with
      | error e => simp
      | ok _ =>
        simp only [slice_ok hoff (le_refl bytes.length)]
        cases hpf : parseField ((bytes.drop offset).take (bytes.length - offset))
            (fieldDefinition fnum) with
        | error e =>
          simp only []
          have hnp := (parseField_no_panic ((bytes.drop offset).take (bytes.length - offset))
            (fieldDefinition fnum)).1
          rw [hpf] at hnp
          simpa using hnp
        | ok vc =>
          obtain ⟨v, consumed⟩ := vc
          simp only []
          have hb := (parseField_no_panic ((bytes.drop offset).take (bytes.length - offset))
            (fieldDefinition fnum)).2 v consumed hpf
          have hlen : ((bytes.drop offset).take (bytes.length - offset)).length
              = bytes.length - offset := by
            simp
          rw [hlen] at hb
          exact parseFieldsLoop_no_panic bytes rest (offset + consumed) _ (by omega)

/-- C5: `from_bytes` is total on every input byte sequence: it returns a
message or a typed error, never panics, and never reads past the end of the
buffer (every slice expression evaluated during parsing is in bounds — an
out-of-bounds one would surface as the `panicked` outcome). -/
theorem C5_from_bytes_never_panics (bytes : List Nat) :
    ISO8583Message.fromBytes bytes ≠ .error .panicked := by
  simp only [ISO8583Message.fromBytes]
  by_cases h12 : bytes.length < 12
  · rw [if_pos h12]
    simp
  · rw [if_neg h12]
    simp only [slice_ok (show (0:Nat) ≤ 4 by omega) (show 4 ≤ bytes.length by omega),
      slice_ok (show (4:Nat) ≤ 12 by omega) (show 12 ≤ bytes.length by omega)]
    cases hm : MessageType.fromBytes ((bytes.drop 0).take (4 - 0)) with
    | error e => simp
    | ok mti =>
      simp only []
      cases hb : Bitmap.fromHex (hexEncode ((bytes.drop 4).take (12 - 4))) with
      | error e => simp
      | ok bitmap0 =>
        simp only []
        by_cases hs1 : bitmap0.isSet 1 = true
        · rw [if_pos hs1]
          by_cases h20 : bytes.length < 12 + 8
          · rw [if_pos h20]
            simp
          · rw [if_neg h20]
            simp only [slice_ok (show (12:Nat) ≤ 20 by omega)
              (show 20 ≤ bytes.length by omega)]
            cases hb2 : Bitmap.fromHex (hexEncode ((bytes.drop 12).take (20 - 12))) with
            | error e => simp
            | ok secondaryBitmap =>
              simp only []
              cases hmerge : mergeLoop secondaryBitmap (List.range' 65 64) bitmap0 with
              | error e => simp
              | ok bm =>
                simp only []
                cases hpl : parseFieldsLoop bytes bm.getSetFields 20 [] with
                | error e =>
                  simp only []
                  have := parseFieldsLoop_no_panic bytes bm.getSetFields 20 [] (by omega)
                  rw [hpl] at this
                  simpa using this
                | ok fields => simp
        · rw [if_neg hs1]
          simp only []
          cases hpl : parseFieldsLoop bytes bitmap0.getSetFields 12 [] with
          | error e =>
            simp only []
            have := parseFieldsLoop_no_panic bytes bitmap0.getSetFields 12 [] (by omega)
            rw [hpl] at this
            simpa using this
          | ok fields => simp

/-- `Validator::validate_required_fields` of `validation.rs`: the common
fields 3, 11, 12, 13 in order; then, for a request whose class is Financial
or Authorization, fields 2 then 4; then, for a response, field 39 (the
source's sequence of early-returning checks, flattened into one
if-cascade). -/
def validate_required_fields (msg : ISO8583Message) : Except Err Unit :=
  if (msg.getField 3).isNone then .error (.MissingRequiredField 3)
  else if (msg.getField 11).isNone then .error (.MissingRequiredField 11)
  else if (msg.getField 12).isNone then .error (.MissingRequiredField 12)
  else if (msg.getField 13).isNone then .error (.MissingRequiredField 13)
  else if (msg.mti.isRequest &&
      (msg.mti.mclass == MessageClass.Financial || msg.mti.mclass == MessageClass.Authorization))
      && (msg.getField 2).isNone then .error (.MissingRequiredField 2)
  else if (msg.mti.isRequest &&
      (msg.mti.mclass == MessageClass.Financial || msg.mti.mclass == MessageClass.Authorization))
      && (msg.getField 4).isNone then .error (.MissingRequiredField 4)
  else if msg.mti.isResponse && (msg.getField 39).isNone then
    .error (.MissingRequiredField 39)
  else .ok ()

/-- `MessageBuilder::build`: required-field validation, then the message. -/
def MessageBuilder.build (msg : ISO8583Message) : Except Err ISO8583Message :=
  match validate_required_fields msg with
  | .ok _ => .ok msg
  | .error e => .error e

/-- `MessageBuilder::field` / `binary_field`: `set_field` with the result
discarded on error (`let _ = ...`). -/
def builderField (msg : ISO8583Message) (fieldNum : Nat) (v : FieldValue) : ISO8583Message :=
  match msg.setField fieldNum v with
  | .ok m2 => m2
  | .error _ => msg

/-- The message accumulated by a builder chain
`MessageBuilder::new().mti(mti).field(f1, v1)....field(fk, vk)` (the
builder starts from an empty message and `mti(...)` only replaces the
MTI). -/
def buildMessage (mti : MessageType) (ops : List (Nat × FieldValue)) : ISO8583Message :=
  ops.foldl (fun m p => builderField m p.1 p.2) (ISO8583Message.new mti)

/-- An absent optional value, stated through either projection. -/
theorem isNone_false_iff_isSome (o : Option FieldValue) :
    o.isNone = false ↔ o.isSome = true := by
  cases o <;> simp

/-- C8: `build()` fails with `MissingRequiredField` naming a field exactly
when a required field is absent: 3, 11, 12, 13 always; 2 and 4 additionally
for a request of class Authorization or Financial; 39 additionally for a
response; and, concretely, an Authorization Request built with fields
2, 3, 11, 12, 13 but no TransactionAmount fails with
`MissingRequiredField(4)`. -/
theorem C8_build_required_fields (msg : ISO8583Message) :
    (MessageBuilder.build msg = .ok msg ↔
      ((msg.getField 3).isSome = true ∧ (msg.getField 11).isSome = true ∧
       (msg.getField 12).isSome = true ∧ (msg.getField 13).isSome = true ∧
       (msg.mti.isRequest = true ∧
          (msg.mti.mclass = .Financial ∨ msg.mti.mclass = .Authorization) →
         (msg.getField 2).isSome = true ∧ (msg.getField 4).isSome = true) ∧
       (msg.mti.isResponse = true → (msg.getField 39).isSome = true))) ∧
    (∀ e, MessageBuilder.build msg = .error e →
      ∃ f, e = .MissingRequiredField f ∧ (msg.getField f).isNone = true ∧
        (f = 3 ∨ f = 11 ∨ f = 12 ∨ f = 13 ∨
         ((f = 2 ∨ f = 4) ∧ msg.mti.isRequest = true ∧
           (msg.mti.mclass = .Financial ∨ msg.mti.mclass = .Authorization)) ∨
         (f = 39 ∧ msg.mti.isResponse = true))) ∧
    MessageBuilder.build (buildMessage MessageType.AUTHORIZATION_REQUEST
        [(2, .str [0x34, 0x31, 0x31, 0x31, 0x31, 0x31, 0x31, 0x31,
                   0x31, 0x31, 0x31, 0x31, 0x31, 0x31, 0x31, 0x31]),
         (3, .str [0x30, 0x31, 0x30, 0x30, 0x30, 0x30]),
         (11, .str [0x31, 0x32, 0x33, 0x34, 0x35, 0x36]),
         (12, .str [0x31, 0x35, 0x30, 0x30, 0x30, 0x30]),
         (13, .str [0x30, 0x31, 0x31, 0x35])])
      = .error (.MissingRequiredField 4) := by
  refine ⟨?_, ?_, by rfl⟩
  · unfold MessageBuilder.build validate_required_fields
    split_ifs with h3 h11 h12 h13 h2 h4 h39 <;> try simp only []
    · rw [Option.isNone_iff_eq_none] at h3
      constructor
      · intro h; exact absurd h (by simp)
      · rintro ⟨hs, -⟩; rw [h3] at hs; exact absurd hs (by simp)
    · rw [Option.isNone_iff_eq_none] at h11
      constructor
      · intro h; exact absurd h (by simp)
      · rintro ⟨-, hs, -⟩; rw [h11] at hs; exact absurd hs (by simp)
    · rw [Option.isNone_iff_eq_none] at h12
      constructor
      · intro h; exact absurd h (by simp)
      · rintro ⟨-, -, hs, -⟩; rw [h12] at hs; exact absurd hs (by simp)
    · rw [Option.isNone_iff_eq_none] at h13
      constructor
      · intro h; exact absurd h (by simp)
      · rintro ⟨-, -, -, hs, -⟩; rw [h13] at hs; exact absurd hs (by simp)
    · simp only [Bool.and_eq_true, Bool.or_eq_true, beq_iff_eq,
        Option.isNone_iff_eq_none] at h2
      constructor
      · intro h; exact absurd h (by simp)
      · rintro ⟨-, -, -, -, hri, -⟩
        have hs := (hri ⟨h2.1.1, h2.1.2⟩).1
        rw [h2.2] at hs; exact absurd hs (by simp)
    · simp only [Bool.and_eq_true, Bool.or_eq_true, beq_iff_eq,
        Option.isNone_iff_eq_none] at h4
      constructor
      · intro h; exact absurd h (by simp)
      · rintro ⟨-, -, -, -, hri, -⟩
        have hs := (hri ⟨h4.1.1, h4.1.2⟩).2
        rw [h4.2] at hs; exact absurd hs (by simp)
    · simp only [Bool.and_eq_true, Option.isNone_iff_eq_none] at h39
      constructor
      · intro h; exact absurd h (by simp)
      · rintro ⟨-, -, -, -, -, hre⟩
        have hs := hre h39.1
        rw [h39.2] at hs; exact absurd hs (by simp)
    · constructor
      · intro _
        rw [Bool.not_eq_true, Option.isNone_eq_false_iff] at h3 h11 h12 h13
        refine ⟨h3, h11, h12, h13, ?_, ?_⟩
        · rintro ⟨hr, hcl⟩
          have hcond : (msg.mti.isRequest &&
              (msg.mti.mclass == MessageClass.Financial ||
                msg.mti.mclass == MessageClass.Authorization)) = true := by
            simp [hr]
            rcases hcl with h | h <;> simp [h]
          constructor
          · cases hn : (msg.getField 2).isNone with
            | false => exact (isNone_false_iff_isSome _).mp hn
            | true => exact absurd (by simp [hcond, hn]) h2
          · cases hn : (msg.getField 4).isNone with
            | false => exact (isNone_false_iff_isSome _).mp hn
            | true => exact absurd (by simp [hcond, hn]) h4
        · intro hresp
          cases hn : (msg.getField 39).isNone with
          | false => exact (isNone_false_iff_isSome _).mp hn
          | true => exact absurd (by simp [hresp, hn]) h39
      · intro _; trivial
  · intro e
    unfold MessageBuilder.build validate_required_fields
    split_ifs with h3 h11 h12 h13 h2 h4 h39 <;> try simp only []
    all_goals intro he
    · cases he
      exact ⟨3, rfl, h3, Or.inl rfl⟩
    · cases he
      exact ⟨11, rfl, h11, Or.inr (Or.inl rfl)⟩
    · cases he
      exact ⟨12, rfl, h12, Or.inr (Or.inr (Or.inl rfl))⟩
    · cases he
      exact ⟨13, rfl, h13, Or.inr (Or.inr (Or.inr (Or.inl rfl)))⟩
    · cases he
      simp only [Bool.and_eq_true, Bool.or_eq_true, beq_iff_eq] at h2
      exact ⟨2, rfl, h2.2, Or.inr (Or.inr (Or.inr (Or.inr (Or.inl
        ⟨Or.inl rfl, h2.1.1, h2.1.2⟩))))⟩
    · cases he
      simp only [Bool.and_eq_true, Bool.or_eq_true, beq_iff_eq] at h4
      exact ⟨4, rfl, h4.2, Or.inr (Or.inr (Or.inr (Or.inr (Or.inl
        ⟨Or.inr rfl, h4.1.1, h4.1.2⟩))))⟩
    · cases he
      simp only [Bool.and_eq_true] at h39
      exact ⟨39, rfl, h39.2, Or.inr (Or.inr (Or.inr (Or.inr (Or.inr
        ⟨rfl, h39.1⟩))))⟩
    · exact absurd he (by simp)
/-- Witness for C8: a complete Authorization Request (the spec's scenario,
fields 2, 3, 4, 11, 12, 13) builds successfully. -/
theorem C8_build_required_fields_witness :
    MessageBuilder.build (buildMessage MessageType.AUTHORIZATION_REQUEST
        [(2, .str [0x34, 0x31, 0x31, 0x31, 0x31, 0x31, 0x31, 0x31,
                   0x31, 0x31, 0x31, 0x31, 0x31, 0x31, 0x31, 0x31]),
         (3, .str [0x30, 0x31, 0x30, 0x30, 0x30, 0x30]),
         (4, .str [0x30, 0x30, 0x30, 0x30, 0x30, 0x30, 0x30, 0x32,
                   0x30, 0x30, 0x30, 0x30]),
         (11, .str [0x31, 0x32, 0x33, 0x34, 0x35, 0x36]),
         (12, .str [0x31, 0x35, 0x30, 0x30, 0x30, 0x30]),
         (13, .str [0x30, 0x31, 0x31, 0x35])])
      = .ok (buildMessage MessageType.AUTHORIZATION_REQUEST
        [(2, .str [0x34, 0x31, 0x31, 0x31, 0x31, 0x31, 0x31, 0x31,
                   0x31, 0x31, 0x31, 0x31, 0x31, 0x31, 0x31, 0x31]),
         (3, .str [0x30, 0x31, 0x30, 0x30, 0x30, 0x30]),
         (4, .str [0x30, 0x30, 0x30, 0x30, 0x30, 0x30, 0x30, 0x32,
                   0x30, 0x30, 0x30, 0x30]),
         (11, .str [0x31, 0x32, 0x33, 0x34, 0x35, 0x36]),
         (12, .str [0x31, 0x35, 0x30, 0x30, 0x30, 0x30]),
         (13, .str [0x30, 0x31, 0x31, 0x35])]) :=
  (C8_build_required_fields _).1.mpr (by decide)

/-- Lookup on a cons cell of the association-list field map. -/
theorem mapGet_cons (a : Nat) (w : FieldValue) (rest : List (Nat × FieldValue)) (g : Nat) :
    mapGet ((a, w) :: rest) g = if a = g then some w else mapGet rest g := by
  simp only [mapGet, List.find?_cons]
  cases heq : (a == g) with
  | true =>
    rw [if_pos (by simpa using heq)]
  | false =>
    rw [if_neg (by simpa using heq)]

/-- `mapRemove` on a cons cell. -/
theorem mapRemove_cons (a : Nat) (w : FieldValue) (rest : List (Nat × FieldValue)) (k : Nat) :
    mapRemove ((a, w) :: rest) k =
      if a = k then mapRemove rest k else (a, w) :: mapRemove rest k := by
  simp only [mapRemove, List.filter_cons]
  by_cases h : a = k <;> simp [h, mapRemove]

/-- `mapInsert` is a cons onto the map with the key removed. -/
theorem mapInsert_eq (l : List (Nat × FieldValue)) (k : Nat) (v : FieldValue) :
    mapInsert l k v = (k, v) :: mapRemove l k := rfl

/-- Removing a key makes lookup of that key fail. -/
theorem mapGet_mapRemove_self (l : List (Nat × FieldValue)) (k : Nat) :
    mapGet (mapRemove l k) k = none := by
  induction l with
  | nil => rfl
  | cons p rest ih =>
    obtain ⟨a, w⟩ := p
    rw [mapRemove_cons]
    by_cases hk : a = k
    · rw [if_pos hk]; exact ih
    · rw [if_neg hk, mapGet_cons, if_neg hk]; exact ih

/-- Removing a key leaves lookups of other keys unchanged. -/
theorem mapGet_mapRemove_ne (l : List (Nat × FieldValue)) (k g : Nat) (h : g ≠ k) :
    mapGet (mapRemove l k) g = mapGet l g := by
  induction l with
  | nil => rfl
  | cons p rest ih =>
    obtain ⟨a, w⟩ := p
    rw [mapRemove_cons, mapGet_cons]
    by_cases hk : a = k
    · rw [if_pos hk, if_neg (by omega), ih]
    · rw [if_neg hk, mapGet_cons]
      by_cases hg : a = g
      · rw [if_pos hg, if_pos hg]
      · rw [if_neg hg, if_neg hg, ih]

/-- Inserting a key makes lookup of that key yield the new value. -/
theorem mapGet_mapInsert_self (l : List (Nat × FieldValue)) (k : Nat) (v : FieldValue) :
    mapGet (mapInsert l k v) k = some v := by
  rw [mapInsert_eq, mapGet_cons, if_pos rfl]

/-- Inserting a key leaves lookups of other keys unchanged. -/
theorem mapGet_mapInsert_ne (l : List (Nat × FieldValue)) (k g : Nat) (v : FieldValue)
    (h : g ≠ k) :
    mapGet (mapInsert l k v) g = mapGet l g := by
  rw [mapInsert_eq, mapGet_cons, if_neg (by omega), mapGet_mapRemove_ne l k g h]

/-- `setInBitmap` preserves the block length. -/
theorem setInBitmap_length (blk : List Nat) (f : Nat) :
    (setInBitmap blk f).length = blk.length := by
  unfold setInBitmap
  split_ifs <;> simp

/-- `clearInBitmap` preserves the block length. -/
theorem clearInBitmap_length (blk : List Nat) (f : Nat) :
    (clearInBitmap blk f).length = blk.length := by
  unfold clearInBitmap
  split_ifs <;> simp

/-- `Bitmap::is_set` on the tertiary range without an allocated block. -/
theorem Bitmap.isSet_tertiary_none (p : List Nat) (sec : Option (List Nat)) {f : Nat}
    (h1 : 129 ≤ f) (h2 : f ≤ 192) :
    Bitmap.isSet ⟨p, sec, none⟩ f = false := by
  simp only [Bitmap.isSet]
  rw [if_neg (by omega), if_neg (by omega : ¬ f ≤ 64), if_neg (by omega : ¬ f ≤ 128)]

/-- Reduction of `Bitmap::clear` on the `65..=128` arm with an allocated
secondary block. -/
theorem Bitmap.clear_secondary (p s : List Nat) (ter : Option (List Nat)) {f : Nat}
    (h1 : 65 ≤ f) (h2 : f ≤ 128) :
    Bitmap.clear ⟨p, some s, ter⟩ f = .ok ⟨p, some (clearInBitmap s (f - 64)), ter⟩ := by
  simp only [Bitmap.clear]
  rw [if_neg (by omega), if_neg (by omega : ¬ f ≤ 64), if_pos h2]

/-- C10 counterexample: the claim includes f = 65, but `set_field(65)`
allocates the tertiary block (and `remove_field(65)` leaves it allocated),
so the bitmap portion of `to_bytes` is 24 bytes, not 16; the other claimed
effects (bit cleared, entry removed, bit 1 still set) do hold. -/
theorem C10_remove_field_65_counterexample :
    (((ISO8583Message.new MessageType.AUTHORIZATION_REQUEST).setField 65
        (.bin [1, 2, 3, 4, 5, 6, 7, 8])).bind
      (fun m1 => (m1.removeField 65).map
        (fun m2 => (m2.bitmap.isSet 65, mapGet m2.fields 65, m2.bitmap.isSet 1,
          m2.bitmap.toBytes.length))))
      = .ok (false, none, true, 24) := by
  rfl

/-- C10 (amended, with 65 excluded): for f in [66,128], on a message whose
bitmap has no secondary or tertiary block allocated (in particular one
holding no field above 64), `set_field(f, v)` followed by
`remove_field(f)` leaves bit f clear and f absent from the field map, while
bit 1 stays set and the allocated secondary block remains, so the bitmap
portion of `to_bytes` is still 16 bytes; the remove changes no other
presence bit and no other field value. -/
theorem C10_remove_after_set (m : ISO8583Message) (f : Nat) (v : FieldValue)
    (hf1 : 66 ≤ f) (hf2 : f ≤ 128)
    (hsec : m.bitmap.secondary = none) (hter : m.bitmap.tertiary = none)
    (hplen : m.bitmap.primary.length = 8) :
    ∃ m1 m2, m.setField f v = .ok m1 ∧ m1.removeField f = .ok m2 ∧
      m2.bitmap.isSet f = false ∧
      mapGet m2.fields f = none ∧
      m2.bitmap.isSet 1 = true ∧
      m2.bitmap.secondary.isSome = true ∧
      m2.bitmap.toBytes.length = 16 ∧
      (∀ g, g ≠ f → m2.bitmap.isSet g = m1.bitmap.isSet g) ∧
      (∀ g, g ≠ f → mapGet m2.fields g = mapGet m1.fields g) := by
  obtain ⟨mti, fl, bm⟩ := m
  obtain ⟨p, sec, ter⟩ := bm
  simp only at hsec hter hplen
  subst hsec hter
  have hset := Bitmap.set_arm66_none p none (f := f) (by omega) hf2
  have hclear := Bitmap.clear_secondary (setInBitmap p 1)
    (setInBitmap (List.replicate 8 0) (f - 64)) none (f := f) (by omega) hf2
  refine ⟨⟨mti, mapInsert fl f v,
      ⟨setInBitmap p 1, some (setInBitmap (List.replicate 8 0) (f - 64)), none⟩⟩,
    ⟨mti, mapRemove (mapInsert fl f v) f,
      ⟨setInBitmap p 1,
       some (clearInBitmap (setInBitmap (List.replicate 8 0) (f - 64)) (f - 64)), none⟩⟩,
    ?_, ?_, ?_, ?_, ?_, ?_, ?_, ?_, ?_⟩
  · simp only [ISO8583Message.setField, hset]
  · simp only [ISO8583Message.removeField, hclear]
  · rw [Bitmap.isSet_secondary _ _ _ (by omega) hf2]
    exact isSetInBitmap_clearInBitmap_self _ _
  · exact mapGet_mapRemove_self _ _
  · rw [Bitmap.isSet_le64 _ _ _ (by omega) (by omega)]
    exact isSetInBitmap_setInBitmap_self (by omega) (by omega) hplen
  · rfl
  · simp only [Bitmap.toBytes, List.length_append, setInBitmap_length,
      clearInBitmap_length, Option.getD_some]
    simp [setInBitmap_length, clearInBitmap_length, hplen]
  · intro g hg
    by_cases hg0 : g = 0 ∨ g > 192
    · simp only [Bitmap.isSet, if_pos hg0]
    by_cases hg64 : g ≤ 64
    · rw [Bitmap.isSet_le64 _ _ _ (by omega) hg64, Bitmap.isSet_le64 _ _ _ (by omega) hg64]
    by_cases hg128 : g ≤ 128
    · rw [Bitmap.isSet_secondary _ _ _ (by omega) hg128,
          Bitmap.isSet_secondary _ _ _ (by omega) hg128]
      exact isSetInBitmap_clearInBitmap_ne (by omega)
    · rw [Bitmap.isSet_tertiary_none _ _ (by omega) (by omega),
          Bitmap.isSet_tertiary_none _ _ (by omega) (by omega)]
  · intro g hg
    exact mapGet_mapRemove_ne _ _ _ hg

/-- Witness for the amended C10: concrete run at field 70 on an empty
message. -/
theorem C10_remove_after_set_witness :
    ∃ m1 m2,
      (ISO8583Message.new MessageType.AUTHORIZATION_REQUEST).setField 70
          (.str [0x30, 0x30, 0x31]) = .ok m1 ∧
      m1.removeField 70 = .ok m2 ∧
      m2.bitmap.isSet 70 = false ∧
      mapGet m2.fields 70 = none ∧
      m2.bitmap.isSet 1 = true ∧
      m2.bitmap.secondary.isSome = true ∧
      m2.bitmap.toBytes.length = 16 ∧
      (∀ g, g ≠ 70 → m2.bitmap.isSet g = m1.bitmap.isSet g) ∧
      (∀ g, g ≠ 70 → mapGet m2.fields g = mapGet m1.fields g) :=
  C10_remove_after_set (ISO8583Message.new MessageType.AUTHORIZATION_REQUEST) 70
    (.str [0x30, 0x30, 0x31]) (by decide) (by decide) (by rfl) (by rfl) (by rfl)

/- ### C1: builder round-trip -/

/-- A field value in canonical form for a definition: a string value for a
non-Binary type (a binary value for `Binary`), ASCII content, exactly the
declared length for `Fixed` (with a positive width), and a length within
both the declared maximum and the capacity of the decimal length prefix
for `LLVar` / `LLLVar`.  On such values `generate_field` performs no
padding and no truncation. -/
def canonicalValue (d : FieldDefinition) (v : FieldValue) : Bool :=
  match v, d.length with
  | .str s, .Fixed n =>
    (d.field_type != .Binary) && decide (0 < n) && (s.length == n) &&
      s.all (fun b => b < 0x80)
  | .str s, .LLVar maxLen =>
    (d.field_type != .Binary) && decide (s.length ≤ maxLen) &&
      decide (s.length ≤ 99) && s.all (fun b => b < 0x80)
  | .str s, .LLLVar maxLen =>
    (d.field_type != .Binary) && decide (s.length ≤ maxLen) &&
      decide (s.length ≤ 999) && s.all (fun b => b < 0x80)
  | .bin b, .Fixed n =>
    (d.field_type == .Binary) && decide (0 < n) && (b.length == n)
  | .bin b, .LLVar maxLen =>
    (d.field_type == .Binary) && decide (b.length ≤ maxLen) && decide (b.length ≤ 99)
  | .bin b, .LLLVar maxLen =>
    (d.field_type == .Binary) && decide (b.length ≤ maxLen) && decide (b.length ≤ 999)

/-- Wellformedness of the decimal length prefix `generate_field` writes for
a data length `L`: exactly `w` ASCII digits that `usize::from_str` parses
back to `L`. -/
def lenPrefixOk (w L : Nat) : Bool :=
  let p := padWidthZeros w (natDecimal L)
  (p.length == w) && p.all isAsciiDigit && (parseUsize p == some L)

set_option maxRecDepth 8192 in
/-- Every length up to 99 renders as a wellformed 2-digit prefix. -/
theorem lenPrefixOk_two : ∀ L : Nat, L < 100 → lenPrefixOk 2 L = true := by decide

set_option maxRecDepth 8192 in
/-- Every length up to 999 renders as a wellformed 3-digit prefix. -/
theorem lenPrefixOk_three : ∀ L : Nat, L < 1000 → lenPrefixOk 3 L = true := by decide

/-- Slicing a buffer at the front returns the prefix. -/
theorem slice_append_front (a b : List Nat) :
    slice (a ++ b) 0 a.length = .ok a := by
  rw [slice_ok (Nat.zero_le _) (by simp)]
  simp [List.take_left]

/-- Slicing a buffer in the middle returns the middle segment. -/
theorem slice_append_mid (a b c : List Nat) :
    slice (a ++ (b ++ c)) a.length (a.length + b.length) = .ok b := by
  rw [slice_ok (Nat.le_add_right _ _) (by simp [List.length_append])]
  rw [List.drop_left, Nat.add_sub_cancel_left, List.take_left]

/-- Parsing a generated canonical field from the front of a buffer recovers
the value and consumes exactly the generated bytes (`parse_field` inverts
`generate_field` on canonical values). -/
theorem parseField_generateField (d : FieldDefinition) (v : FieldValue)
    (rest : List Nat) (hc : canonicalValue d v = true) :
    parseField (generateField d v ++ rest) d =
      .ok (v, (generateField d v).length) := by
  obtain ⟨num, ft, dl⟩ := d
  cases v with
  | str s =>
    cases dl with
    | Fixed n =>
      simp only [canonicalValue, Bool.and_eq_true, bne_iff_ne, ne_eq, beq_iff_eq,
        decide_eq_true_eq, List.all_eq_true] at hc
      obtain ⟨⟨⟨hft, hn⟩, hlen⟩, hascii⟩ := hc
      subst hlen
      have hgen : generateField ⟨num, ft, .Fixed s.length⟩ (.str s) = s := by
        simp only [generateField]
        rw [if_neg (by omega), if_neg (by omega)]
      rw [hgen]
      have htot : (s ++ rest).length = s.length + rest.length := List.length_append s rest
      simp only [parseField]
      rw [if_neg (by omega), if_neg (by omega), slice_append_front s rest]
      simp only []
      cases ft <;>
        first
          | exact absurd rfl hft
          | rw [if_pos (isValidUtf8_of_ascii s hascii)]
    | LLVar maxLen =>
      simp only [canonicalValue, Bool.and_eq_true, bne_iff_ne, ne_eq,
        decide_eq_true_eq, List.all_eq_true] at hc
      obtain ⟨⟨⟨hft, hmax⟩, h99⟩, hascii⟩ := hc
      have hp := lenPrefixOk_two s.length (by omega)
      simp only [lenPrefixOk, Bool.and_eq_true, beq_iff_eq, List.all_eq_true] at hp
      obtain ⟨⟨hplen, hpdig⟩, hpparse⟩ := hp
      have hgen : generateField ⟨num, ft, .LLVar maxLen⟩ (.str s) =
          padWidthZeros 2 (natDecimal s.length) ++ s := rfl
      rw [hgen, List.append_assoc]
      generalize hpe : padWidthZeros 2 (natDecimal s.length) = p at hplen hpdig hpparse ⊢
      have hpascii : ∀ x ∈ p, x < 0x80 := by
        intro x hx
        have hdx := hpdig x hx
        simp only [isAsciiDigit, Bool.and_eq_true, decide_eq_true_eq] at hdx
        omega
      have htot : (p ++ (s ++ rest)).length = 2 + (s.length + rest.length) := by
        simp [hplen]
      have hsl1 : slice (p ++ (s ++ rest)) 0 2 = .ok p := by
        rw [← hplen]
        exact slice_append_front p (s ++ rest)
      have hsl2 : slice (p ++ (s ++ rest)) 2 (2 + s.length) = .ok s := by
        rw [← hplen]
        exact slice_append_mid p s rest
      simp only [parseField]
      rw [if_neg (by omega), if_neg (by omega), hsl1]
      simp only []
      rw [if_pos (isValidUtf8_of_ascii p hpascii), hpparse]
      simp only []
      rw [if_neg (by omega), if_neg (by omega), hsl2]
      simp only []
      rw [List.length_append, hplen]
      cases ft <;>
        first
          | exact absurd rfl hft
          | rw [if_pos (isValidUtf8_of_ascii s hascii)]
    | LLLVar maxLen =>
      simp only [canonicalValue, Bool.and_eq_true, bne_iff_ne, ne_eq,
        decide_eq_true_eq, List.all_eq_true] at hc
      obtain ⟨⟨⟨hft, hmax⟩, h999⟩, hascii⟩ := hc
      have hp := lenPrefixOk_three s.length (by omega)
      simp only [lenPrefixOk, Bool.and_eq_true, beq_iff_eq, List.all_eq_true] at hp
      obtain ⟨⟨hplen, hpdig⟩, hpparse⟩ := hp
      have hgen : generateField ⟨num, ft, .LLLVar maxLen⟩ (.str s) =
          padWidthZeros 3 (natDecimal s.length) ++ s := rfl
      rw [hgen, List.append_assoc]
      generalize hpe : padWidthZeros 3 (natDecimal s.length) = p at hplen hpdig hpparse ⊢
      have hpascii : ∀ x ∈ p, x < 0x80 := by
        intro x hx
        have hdx := hpdig x hx
        simp only [isAsciiDigit, Bool.and_eq_true, decide_eq_true_eq] at hdx
        omega
      have htot : (p ++ (s ++ rest)).length = 3 + (s.length + rest.length) := by
        simp [hplen]
      have hsl1 : slice (p ++ (s ++ rest)) 0 3 = .ok p := by
        rw [← hplen]
        exact slice_append_front p (s ++ rest)
      have hsl2 : slice (p ++ (s ++ rest)) 3 (3 + s.length) = .ok s := by
        rw [← hplen]
        exact slice_append_mid p s rest
      simp only [parseField]
      rw [if_neg (by omega), if_neg (by omega), hsl1]
      simp only []
      rw [if_pos (isValidUtf8_of_ascii p hpascii), hpparse]
      simp only []
      rw [if_neg (by omega), if_neg (by omega), hsl2]
      simp only []
      rw [List.length_append, hplen]
      cases ft <;>
        first
          | exact absurd rfl hft
          | rw [if_pos (isValidUtf8_of_ascii s hascii)]
  | bin b =>
    cases dl with
    | Fixed n =>
      simp only [canonicalValue, Bool.and_eq_true, beq_iff_eq, decide_eq_true_eq] at hc
      obtain ⟨⟨hft, hn⟩, hlen⟩ := hc
      subst hlen
      subst hft
      have hgen : generateField ⟨num, .Binary, .Fixed b.length⟩ (.bin b) = b := by
        simp only [generateField]
        simp [List.take_length, Nat.sub_self]
      rw [hgen]
      have htot : (b ++ rest).length = b.length + rest.length := List.length_append b rest
      simp only [parseField]
      rw [if_neg (by omega), if_neg (by omega), slice_append_front b rest]
    | LLVar maxLen =>
      simp only [canonicalValue, Bool.and_eq_true, beq_iff_eq, decide_eq_true_eq] at hc
      obtain ⟨⟨hft, hmax⟩, h99⟩ := hc
      subst hft
      have hp := lenPrefixOk_two b.length (by omega)
      simp only [lenPrefixOk, Bool.and_eq_true, beq_iff_eq, List.all_eq_true] at hp
      obtain ⟨⟨hplen, hpdig⟩, hpparse⟩ := hp
      have hgen : generateField ⟨num, .Binary, .LLVar maxLen⟩ (.bin b) =
          padWidthZeros 2 (natDecimal b.length) ++ b := rfl
      rw [hgen, List.append_assoc]
      generalize hpe : padWidthZeros 2 (natDecimal b.length) = p at hplen hpdig hpparse ⊢
      have hpascii : ∀ x ∈ p, x < 0x80 := by
        intro x hx
        have hdx := hpdig x hx
        simp only [isAsciiDigit, Bool.and_eq_true, decide_eq_true_eq] at hdx
        omega
      have htot : (p ++ (b ++ rest)).length = 2 + (b.length + rest.length) := by
        simp [hplen]
      have hsl1 : slice (p ++ (b ++ rest)) 0 2 = .ok p := by
        rw [← hplen]
        exact slice_append_front p (b ++ rest)
      have hsl2 : slice (p ++ (b ++ rest)) 2 (2 + b.length) = .ok b := by
        rw [← hplen]
        exact slice_append_mid p b rest
      simp only [parseField]
      rw [if_neg (by omega), if_neg (by omega), hsl1]
      simp only []
      rw [if_pos (isValidUtf8_of_ascii p hpascii), hpparse]
      simp only []
      rw [if_neg (by omega), if_neg (by omega), hsl2]
      simp only []
      rw [List.length_append, hplen]
    | LLLVar maxLen =>
      simp only [canonicalValue, Bool.and_eq_true, beq_iff_eq, decide_eq_true_eq] at hc
      obtain ⟨⟨hft, hmax⟩, h999⟩ := hc
      subst hft
      have hp := lenPrefixOk_three b.length (by omega)
      simp only [lenPrefixOk, Bool.and_eq_true, beq_iff_eq, List.all_eq_true] at hp
      obtain ⟨⟨hplen, hpdig⟩, hpparse⟩ := hp
      have hgen : generateField ⟨num, .Binary, .LLLVar maxLen⟩ (.bin b) =
          padWidthZeros 3 (natDecimal b.length) ++ b := rfl
      rw [hgen, List.append_assoc]
      generalize hpe : padWidthZeros 3 (natDecimal b.length) = p at hplen hpdig hpparse ⊢
      have hpascii : ∀ x ∈ p, x < 0x80 := by
        intro x hx
        have hdx := hpdig x hx
        simp only [isAsciiDigit, Bool.and_eq_true, decide_eq_true_eq] at hdx
        omega
      have htot : (p ++ (b ++ rest)).length = 3 + (b.length + rest.length) := by
        simp [hplen]
      have hsl1 : slice (p ++ (b ++ rest)) 0 3 = .ok p := by
        rw [← hplen]
        exact slice_append_front p (b ++ rest)
      have hsl2 : slice (p ++ (b ++ rest)) 3 (3 + b.length) = .ok b := by
        rw [← hplen]
        exact slice_append_mid p b rest
      simp only [parseField]
      rw [if_neg (by omega), if_neg (by omega), hsl1]
      simp only []
      rw [if_pos (isValidUtf8_of_ascii p hpascii), hpparse]
      simp only []
      rw [if_neg (by omega), if_neg (by omega), hsl2]
      simp only []
      rw [List.length_append, hplen]

/-- A default-bounded lookup in a list of bytes stays below 256. -/
theorem getD_lt_bound (l : List Nat) (h : ∀ x ∈ l, x < 256) (i : Nat) :
    l.getD i 0 < 256 := by
  rcases Nat.lt_or_ge i l.length with hi | hi
  · rw [List.getD_eq_getElem l 0 hi]
    exact h _ (List.getElem_mem hi)
  · rw [List.getD_eq_default l 0 hi]
    omega

/-- `set_in_bitmap` keeps every byte of the block below 256 (the Rust block
is a `[u8; 8]`). -/
theorem setInBitmap_bytes_bound (blk : List Nat) (f : Nat)
    (h : ∀ x ∈ blk, x < 256) : ∀ x ∈ setInBitmap blk f, x < 256 := by
  intro x hx
  simp only [setInBitmap] at hx
  split_ifs at hx with hf
  · exact h x hx
  · rcases List.mem_or_eq_of_mem_set hx with hmem | heq
    · exact h x hmem
    · subst heq
      have hold : blk.getD ((f - 1) / 8) 0 < 256 := getD_lt_bound blk h _
      have hmask : (1 <<< (7 - (f - 1) % 8)) < 256 := by
        rw [Nat.one_shiftLeft]
        calc 2 ^ (7 - (f - 1) % 8) ≤ 2 ^ 7 := Nat.pow_le_pow_right (by omega) (by omega)
        _ < 256 := by omega
      have h28 : (2:Nat) ^ 8 = 256 := by norm_num
      have hold8 : blk.getD ((f - 1) / 8) 0 < 2 ^ 8 := by rw [h28]; exact hold
      have hmask8 : (1 <<< (7 - (f - 1) % 8)) < 2 ^ 8 := by rw [h28]; exact hmask
      have hres := Nat.or_lt_two_pow hold8 hmask8
      rw [h28] at hres
      exact hres

/-- `Bitmap::is_set` on a bitmap with only a primary block. -/
theorem Bitmap.isSet_primary_only (p : List Nat) (g : Nat) :
    Bitmap.isSet ⟨p, none, none⟩ g =
      if 1 ≤ g ∧ g ≤ 64 then isSetInBitmap p g else false := by
  unfold Bitmap.isSet
  by_cases h0 : g = 0 ∨ g > 192
  · rw [if_pos h0, if_neg (by omega : ¬(1 ≤ g ∧ g ≤ 64))]
  · rw [if_neg h0]
    by_cases h64 : g ≤ 64
    · rw [if_pos h64, if_pos (by omega : 1 ≤ g ∧ g ≤ 64)]
    · rw [if_neg h64, if_neg (by omega : ¬(1 ≤ g ∧ g ≤ 64))]
      by_cases h128 : g ≤ 128
      · rw [if_pos h128]
      · rw [if_neg h128]

/-- A `Bitmap::new()` block has no bit set. -/
theorem isSetInBitmap_replicate_zero (g : Nat) :
    isSetInBitmap (List.replicate 8 0) g = false := by
  by_cases h : g = 0 ∨ g > 64
  · simp only [isSetInBitmap, h, if_true]
  · simp only [isSetInBitmap, h, if_false]
    have hz : (List.replicate 8 (0:Nat)).getD ((g - 1) / 8) 0 = 0 := by
      rcases Nat.lt_or_ge ((g - 1) / 8) 8 with hi | hi
      · rw [List.getD_eq_getElem _ 0 (by simpa using hi), List.getElem_replicate]
      · rw [List.getD_eq_default _ 0 (by simpa using hi)]
    rw [hz]
    simp

/-- A key has a value in the field map exactly when it is among the keys. -/
theorem mapGet_isSome_iff_mem_keys (l : List (Nat × FieldValue)) (g : Nat) :
    (mapGet l g).isSome = true ↔ g ∈ mapKeys l := by
  induction l with
  | nil => simp [mapGet, mapKeys]
  | cons q rest ih =>
    obtain ⟨a, w⟩ := q
    rw [mapGet_cons]
    by_cases hag : a = g
    · subst hag
      simp [mapKeys]
    · rw [if_neg hag, ih]
      have hck : mapKeys ((a, w) :: rest) = a :: mapKeys rest := rfl
      rw [hck, List.mem_cons]
      constructor
      · exact Or.inr
      · rintro (h | h)
        · exact absurd h.symm hag
        · exact h

/-- `mapInsert` keeps the keys distinct. -/
theorem mapKeys_mapInsert_nodup (l : List (Nat × FieldValue)) (k : Nat) (v : FieldValue)
    (h : (mapKeys l).Nodup) : (mapKeys (mapInsert l k v)).Nodup := by
  have hck : mapKeys (mapInsert l k v) = k :: mapKeys (mapRemove l k) := rfl
  rw [hck, List.nodup_cons]
  constructor
  · intro hmem
    rw [mapKeys, List.mem_map] at hmem
    obtain ⟨q, hq, hqk⟩ := hmem
    rw [mapRemove, List.mem_filter] at hq
    have hqf := hq.2
    simp only [Bool.not_eq_true', beq_eq_false_iff_ne, ne_eq] at hqf
    exact hqf hqk
  · have hsub : List.Sublist (mapRemove l k) l := List.filter_sublist l
    exact h.sublist (hsub.map Prod.fst)

/-- Invariant maintained by the builder chain: no secondary or tertiary
block is ever allocated, the primary block stays an 8-byte array of `u8`
values, the presence bits agree with the field map, the map keys are
distinct and every stored pair is in range 2..=64 with a canonical value. -/
def BuilderInv (m : ISO8583Message) : Prop :=
  m.bitmap.secondary = none ∧ m.bitmap.tertiary = none ∧
  m.bitmap.primary.length = 8 ∧ (∀ x ∈ m.bitmap.primary, x < 256) ∧
  (∀ g, m.bitmap.isSet g = (mapGet m.fields g).isSome) ∧
  (mapKeys m.fields).Nodup ∧
  (∀ k w, mapGet m.fields k = some w →
    2 ≤ k ∧ k ≤ 64 ∧ canonicalValue (fieldDefinition k) w = true)

/-- `ISO8583Message::new` satisfies the builder invariant. -/
theorem builderInv_new (mti : MessageType) : BuilderInv (ISO8583Message.new mti) := by
  refine ⟨rfl, rfl, by simp [ISO8583Message.new, Bitmap.new], ?_, ?_,
    List.nodup_nil, ?_⟩
  · intro x hx
    have hx0 := List.eq_of_mem_replicate hx
    omega
  · intro g
    show Bitmap.isSet ⟨List.replicate 8 0, none, none⟩ g = (mapGet [] g).isSome
    rw [Bitmap.isSet_primary_only, isSetInBitmap_replicate_zero]
    simp [mapGet]
  · intro k w hw
    simp [mapGet, ISO8583Message.new] at hw

/-- One builder step on an in-range canonical pair preserves the invariant,
keeps the MTI, and inserts the pair into the map. -/
theorem builderField_inv (m : ISO8583Message) (k : Nat) (v : FieldValue)
    (hk2 : 2 ≤ k) (hk64 : k ≤ 64)
    (hcv : canonicalValue (fieldDefinition k) v = true)
    (hinv : BuilderInv m) :
    BuilderInv (builderField m k v) ∧ (builderField m k v).mti = m.mti ∧
    (builderField m k v).fields = mapInsert m.fields k v := by
  obtain ⟨hsec, hter, hplen, hpb, hbits, hnd, hvals⟩ := hinv
  rcases hB : m.bitmap with ⟨p, s2, t2⟩
  rw [hB] at hsec hter hplen hpb hbits
  simp only [] at hsec hter hplen hpb
  subst hsec
  subst hter
  have hset : m.bitmap.set k = .ok ⟨setInBitmap p k, none, none⟩ := by
    rw [hB]
    exact Bitmap.set_arm2 p none none hk2 hk64
  have hbf : builderField m k v =
      ⟨m.mti, mapInsert m.fields k v, ⟨setInBitmap p k, none, none⟩⟩ := by
    unfold builderField ISO8583Message.setField
    rw [hset]
  rw [hbf]
  refine ⟨⟨rfl, rfl, ?_, ?_, ?_, ?_, ?_⟩, rfl, rfl⟩
  · rw [setInBitmap_length]
    exact hplen
  · exact setInBitmap_bytes_bound p k hpb
  · intro g
    show Bitmap.isSet ⟨setInBitmap p k, none, none⟩ g =
      (mapGet (mapInsert m.fields k v) g).isSome
    rw [Bitmap.isSet_primary_only]
    by_cases hgk : g = k
    · subst hgk
      rw [if_pos ⟨by omega, hk64⟩, mapGet_mapInsert_self,
          isSetInBitmap_setInBitmap_self (by omega) hk64 hplen]
      rfl
    · rw [mapGet_mapInsert_ne m.fields k g v hgk]
      have hb := hbits g
      rw [Bitmap.isSet_primary_only] at hb
      by_cases hrange : 1 ≤ g ∧ g ≤ 64
      · rw [if_pos hrange, isSetInBitmap_setInBitmap_ne hgk]
        rw [if_pos hrange] at hb
        exact hb
      · rw [if_neg hrange]
        rw [if_neg hrange] at hb
        exact hb
  · exact mapKeys_mapInsert_nodup m.fields k v hnd
  · intro k2 w hw
    simp only [] at hw
    by_cases hk2k : k2 = k
    · subst hk2k
      rw [mapGet_mapInsert_self] at hw
      have hv : v = w := by injection hw
      exact ⟨hk2, hk64, hv ▸ hcv⟩
    · rw [mapGet_mapInsert_ne m.fields k k2 v hk2k] at hw
      exact hvals k2 w hw

/-- The builder fold over in-range canonical operations preserves the
invariant and the MTI. -/
theorem buildFold_inv : ∀ (ops : List (Nat × FieldValue)) (m : ISO8583Message),
    (∀ q ∈ ops, 2 ≤ q.1 ∧ q.1 ≤ 64 ∧ canonicalValue (fieldDefinition q.1) q.2 = true) →
    BuilderInv m →
    BuilderInv (ops.foldl (fun a q => builderField a q.1 q.2) m) ∧
    (ops.foldl (fun a q => builderField a q.1 q.2) m).mti = m.mti
  | [], _, _, hinv => ⟨hinv, rfl⟩
  | q :: rest, m, hops, hinv => by
    obtain ⟨hq2, hq64, hqc⟩ := hops q (List.mem_cons_self q rest)
    obtain ⟨hinv2, hmti, _⟩ := builderField_inv m q.1 q.2 hq2 hq64 hqc hinv
    rw [List.foldl_cons]
    obtain ⟨ha, hb⟩ := buildFold_inv rest (builderField m q.1 q.2)
      (fun r hr => hops r (List.mem_cons_of_mem q hr)) hinv2
    exact ⟨ha, hb.trans hmti⟩

/-- The builder invariant and MTI of `buildMessage`. -/
theorem buildMessage_inv (mti : MessageType) (ops : List (Nat × FieldValue))
    (hops : ∀ q ∈ ops, 2 ≤ q.1 ∧ q.1 ≤ 64 ∧
      canonicalValue (fieldDefinition q.1) q.2 = true) :
    BuilderInv (buildMessage mti ops) ∧ (buildMessage mti ops).mti = mti :=
  buildFold_inv ops (ISO8583Message.new mti) hops (builderInv_new mti)

/-- Rendering a single-digit number is one ASCII digit. -/
theorem natDecimal_lt_ten {n : Nat} (h : n < 10) : natDecimal n = [0x30 + n] := by
  simp [natDecimal, natDecimalAux, h]

/-- `MessageClass::to_digit` is a single digit. -/
theorem mclass_toDigit_lt_ten (c : MessageClass) : c.toDigit < 10 := by
  cases c <;> decide

/-- `MessageFunction::to_digit` is a single digit. -/
theorem mfunction_toDigit_lt_ten (f : MessageFunction) : f.toDigit < 10 := by
  cases f <;> decide

/-- `MessageOrigin::to_digit` is a single digit. -/
theorem morigin_toDigit_lt_ten (o : MessageOrigin) : o.toDigit < 10 := by
  cases o <;> decide

/-- `MessageClass::from_digit` inverts `to_digit`. -/
theorem mclass_fromDigit_toDigit (c : MessageClass) :
    MessageClass.fromDigit c.toDigit = .ok c := by cases c <;> rfl

/-- `MessageFunction::from_digit` inverts `to_digit`. -/
theorem mfunction_fromDigit_toDigit (f : MessageFunction) :
    MessageFunction.fromDigit f.toDigit = .ok f := by cases f <;> rfl

/-- `MessageOrigin::from_digit` inverts `to_digit`. -/
theorem morigin_fromDigit_toDigit (o : MessageOrigin) :
    MessageOrigin.fromDigit o.toDigit = .ok o := by cases o <;> rfl

/-- `char::to_digit(10)` on an ASCII digit byte. -/
theorem mtiDigit_of_le9 {v : Nat} (h : v ≤ 9) : mtiDigit (0x30 + v) = .ok v := by
  unfold mtiDigit
  rw [if_pos ⟨by omega, by omega⟩]
  congr 1
  omega

/-- Reduction of the `Except` monad bind on a success value. -/
theorem exceptBind_ok {α β : Type} (a : α) (f : α → Except Err β) :
    (Except.ok a >>= f) = f a := rfl

/-- For a version below 10, `MessageType::to_string` is the four ASCII
digits of the positions. -/
theorem MessageType.toBytes_digits (mt : MessageType) (h : mt.version ≤ 9) :
    mt.toBytes = [0x30 + mt.version, 0x30 + mt.mclass.toDigit,
      0x30 + mt.mfunction.toDigit, 0x30 + mt.origin.toDigit] := by
  unfold MessageType.toBytes
  rw [natDecimal_lt_ten (by omega), natDecimal_lt_ten (mclass_toDigit_lt_ten _),
      natDecimal_lt_ten (mfunction_toDigit_lt_ten _),
      natDecimal_lt_ten (morigin_toDigit_lt_ten _)]
  rfl

/-- `MessageType::from_str` inverts the digit rendering. -/
theorem MessageType.fromStr_digits (mt : MessageType) (h : mt.version ≤ 9) :
    MessageType.fromStr [0x30 + mt.version, 0x30 + mt.mclass.toDigit,
      0x30 + mt.mfunction.toDigit, 0x30 + mt.origin.toDigit] = .ok mt := by
  simp only [MessageType.fromStr]
  rw [mtiDigit_of_le9 h, exceptBind_ok]
  rw [mtiDigit_of_le9 (by have := mclass_toDigit_lt_ten mt.mclass; omega),
      exceptBind_ok]
  rw [mtiDigit_of_le9 (by have := mfunction_toDigit_lt_ten mt.mfunction; omega),
      exceptBind_ok]
  rw [mtiDigit_of_le9 (by have := morigin_toDigit_lt_ten mt.origin; omega),
      exceptBind_ok]
  rw [mclass_fromDigit_toDigit, exceptBind_ok]
  rw [mfunction_fromDigit_toDigit, exceptBind_ok]
  rw [morigin_fromDigit_toDigit, exceptBind_ok]

/-- `MessageType::from_bytes` inverts `to_bytes` for versions below 10. -/
theorem MessageType.fromBytes_toBytes (mt : MessageType) (h : mt.version ≤ 9) :
    MessageType.fromBytes mt.toBytes = .ok mt := by
  rw [MessageType.toBytes_digits mt h]
  unfold MessageType.fromBytes
  have hval : isValidUtf8 ([0x30 + mt.version, 0x30 + mt.mclass.toDigit,
      0x30 + mt.mfunction.toDigit, 0x30 + mt.origin.toDigit].take 4) = true := by
    apply isValidUtf8_of_ascii
    intro b hb
    have h1 := mclass_toDigit_lt_ten mt.mclass
    have h2 := mfunction_toDigit_lt_ten mt.mfunction
    have h3 := morigin_toDigit_lt_ten mt.origin
    simp [List.take] at hb
    rcases hb with hb | hb | hb | hb <;> omega
  rw [if_neg (by simp), if_pos hval]
  show MessageType.fromStr [0x30 + mt.version, 0x30 + mt.mclass.toDigit,
      0x30 + mt.mfunction.toDigit, 0x30 + mt.origin.toDigit] = .ok mt
  exact MessageType.fromStr_digits mt h

/-- `hex::decode` of one encoded nibble character. -/
theorem hexVal_hexDigitChar {n : Nat} (h : n < 16) : hexVal (hexDigitChar n) = some n := by
  unfold hexVal hexDigitChar
  by_cases h10 : n < 10
  · rw [if_pos h10, if_pos ⟨by omega, by omega⟩]
    congr 1
    omega
  · rw [if_neg h10, if_neg (by omega), if_pos ⟨by omega, by omega⟩]
    congr 1
    omega

/-- `hex::decode` inverts `hex::encode` on byte values. -/
theorem hexDecode_hexEncode : ∀ (bs : List Nat), (∀ x ∈ bs, x < 256) →
    hexDecode (hexEncode bs) = some bs
  | [], _ => rfl
  | b :: rest, h => by
    have hb : b < 256 := h b (List.mem_cons_self b rest)
    show hexDecode (hexDigitChar (b / 16) :: hexDigitChar (b % 16) :: hexEncode rest) = _
    rw [hexDecode]
    rw [hexVal_hexDigitChar (by omega), hexVal_hexDigitChar (by omega),
        hexDecode_hexEncode rest (fun x hx => h x (List.mem_cons_of_mem b hx))]
    simp only []
    congr 2
    omega

/-- `get_set_fields` of a primary-only bitmap synchronised with a field map
whose keys are distinct and lie in 2..=64 is exactly the ascending
(insertion-sorted) list of the map keys. -/
theorem getSetFields_eq_sorted_keys (p : List Nat) (fl : List (Nat × FieldValue))
    (hbits : ∀ g, Bitmap.isSet ⟨p, none, none⟩ g = (mapGet fl g).isSome)
    (hnd : (mapKeys fl).Nodup)
    (hkeys : ∀ k w, mapGet fl k = some w → 2 ≤ k ∧ k ≤ 64) :
    Bitmap.getSetFields ⟨p, none, none⟩ =
      (mapKeys fl).insertionSort (fun a b => a ≤ b) := by
  have hL : Bitmap.getSetFields ⟨p, none, none⟩ =
      (List.range' 1 64).filter (fun f => isSetInBitmap p f) := by
    simp [Bitmap.getSetFields]
  have hmemL : ∀ g, (g ∈ (List.range' 1 64).filter (fun f => isSetInBitmap p f)) ↔
      g ∈ mapKeys fl := by
    intro g
    rw [List.mem_filter, List.mem_range'_1]
    constructor
    · rintro ⟨⟨hg1, hg2⟩, hset⟩
      rw [← mapGet_isSome_iff_mem_keys]
      have hb := hbits g
      rw [Bitmap.isSet_primary_only, if_pos (by omega : 1 ≤ g ∧ g ≤ 64)] at hb
      rw [← hb]
      exact hset
    · intro hmem
      have hsome := (mapGet_isSome_iff_mem_keys fl g).mpr hmem
      obtain ⟨w, hw⟩ := Option.isSome_iff_exists.mp hsome
      obtain ⟨hg2, hg64⟩ := hkeys g w hw
      have hb := hbits g
      rw [Bitmap.isSet_primary_only, if_pos (by omega : 1 ≤ g ∧ g ≤ 64)] at hb
      refine ⟨⟨by omega, by omega⟩, ?_⟩
      show isSetInBitmap p g = true
      rw [hb]
      exact hsome
  rw [hL]
  have hndL : ((List.range' 1 64).filter (fun f => isSetInBitmap p f)).Nodup :=
    (List.nodup_range' 1 64).filter _
  have hndR : ((mapKeys fl).insertionSort (fun a b => a ≤ b)).Nodup :=
    ((List.perm_insertionSort (fun a b => a ≤ b) (mapKeys fl)).nodup_iff).mpr hnd
  have hperm : List.Perm ((List.range' 1 64).filter (fun f => isSetInBitmap p f))
      ((mapKeys fl).insertionSort (fun a b => a ≤ b)) := by
    rw [List.perm_ext_iff_of_nodup hndL hndR]
    intro a
    rw [hmemL a]
    constructor
    · intro hmem
      exact ((List.perm_insertionSort (fun a b => a ≤ b) (mapKeys fl)).mem_iff).mpr hmem
    · intro hmem
      exact ((List.perm_insertionSort (fun a b => a ≤ b) (mapKeys fl)).mem_iff).mp hmem
  have hsortL : List.Sorted (fun a b : Nat => a ≤ b)
      ((List.range' 1 64).filter (fun f => isSetInBitmap p f)) := by
    have hpw : List.Pairwise (fun a b : Nat => a ≤ b) (List.range' 1 64) :=
      (List.pairwise_lt_range' 1 64).imp (fun hlt => Nat.le_of_lt hlt)
    exact hpw.filter _
  have hsortR : List.Sorted (fun a b : Nat => a ≤ b)
      ((mapKeys fl).insertionSort (fun a b => a ≤ b)) :=
    List.sorted_insertionSort _ (mapKeys fl)
  exact List.eq_of_perm_of_sorted hperm hsortL hsortR

/-- `flatMap` only depends on the function on members. -/
theorem flatMap_congr_mem {l : List Nat} {f g : Nat → List Nat}
    (h : ∀ a ∈ l, f a = g a) : l.flatMap f = l.flatMap g := by
  induction l with
  | nil => rfl
  | cons a t ih =>
    rw [List.flatMap_cons, List.flatMap_cons, h a (List.mem_cons_self a t),
        ih (fun x hx => h x (List.mem_cons_of_mem a hx))]

/-- Lookup after folding `mapInsert` of a fixed value function over a key
list. -/
theorem mapGet_foldl_insert (vals : Nat → FieldValue) :
    ∀ (ks : List Nat) (acc : List (Nat × FieldValue)) (g : Nat),
      mapGet (ks.foldl (fun a k => mapInsert a k (vals k)) acc) g =
        if g ∈ ks then some (vals g) else mapGet acc g
  | [], acc, g => by simp
  | k :: rest, acc, g => by
    rw [List.foldl_cons, mapGet_foldl_insert vals rest (mapInsert acc k (vals k)) g]
    by_cases hg : g ∈ rest
    · rw [if_pos hg, if_pos (List.mem_cons_of_mem k hg)]
    · rw [if_neg hg]
      by_cases hgk : g = k
      · subst hgk
        rw [if_pos (List.mem_cons_self g rest), mapGet_mapInsert_self]
      · rw [if_neg (by simp [List.mem_cons, hgk, hg]),
            mapGet_mapInsert_ne acc k g (vals k) hgk]

/-- The field loop of `from_bytes`, fed the concatenated generated data of
in-range canonical fields at the running offset, parses every field back
and accumulates exactly the generated values. -/
theorem parseFieldsLoop_canonical (bytes : List Nat) (vals : Nat → FieldValue) :
    ∀ (ks : List Nat) (offset : Nat) (acc : List (Nat × FieldValue)),
      (∀ k ∈ ks, 2 ≤ k ∧ k ≤ 64 ∧
        canonicalValue (fieldDefinition k) (vals k) = true) →
      bytes.drop offset =
        ks.flatMap (fun k => generateField (fieldDefinition k) (vals k)) →
      offset ≤ bytes.length →
      parseFieldsLoop bytes ks offset acc =
        .ok (ks.foldl (fun a k => mapInsert a k (vals k)) acc)
  | [], offset, acc, _, _, _ => by simp [parseFieldsLoop]
  | k :: rest, offset, acc, hks, hdrop, hoff => by
    obtain ⟨hk2, hk64, hkc⟩ := hks k (List.mem_cons_self k rest)
    simp only [parseFieldsLoop]
    rw [if_neg (by omega : ¬(k = 1 ∨ k = 65))]
    have hfn : Field.fromNumber k = .ok k := by
      unfold Field.fromNumber
      rw [if_neg (by omega)]
    rw [hfn]
    simp only []
    have hsl : slice bytes offset bytes.length = .ok (bytes.drop offset) := by
      rw [slice_ok hoff (le_refl _)]
      congr 1
      rw [← List.length_drop]
      exact List.take_length _
    rw [hsl]
    simp only []
    rw [List.flatMap_cons] at hdrop
    rw [hdrop, parseField_generateField _ _ _ hkc]
    simp only []
    have hdl : bytes.drop (offset + (generateField (fieldDefinition k) (vals k)).length) =
        rest.flatMap (fun g => generateField (fieldDefinition g) (vals g)) := by
      rw [← List.drop_drop, hdrop]
      exact List.drop_left _ _
    have hoff2 : offset + (generateField (fieldDefinition k) (vals k)).length ≤
        bytes.length := by
      have hlen2 : (bytes.drop offset).length =
          (generateField (fieldDefinition k) (vals k)).length +
          (rest.flatMap (fun g => generateField (fieldDefinition g) (vals g))).length := by
        rw [hdrop, List.length_append]
      simp only [List.length_drop] at hlen2
      omega
    rw [List.foldl_cons]
    exact parseFieldsLoop_canonical bytes vals rest _ _
      (fun g hg => hks g (List.mem_cons_of_mem k hg)) hdl hoff2

/-- C1 (amended): a message produced by a builder chain whose field
operations all target fields 2..=64 with values in canonical form for the
codec field table, and whose MTI version digit is at most 9, round-trips
whenever `build()` succeeds: `from_bytes(to_bytes(m))` succeeds and yields
a message with the same MTI and exactly the same (field, value) pairs. -/
theorem C1_round_trip (mti : MessageType) (ops : List (Nat × FieldValue))
    (m : ISO8583Message) (hm : m = buildMessage mti ops)
    (hbuilt : ∃ m2, MessageBuilder.build m = .ok m2)
    (hver : mti.version ≤ 9)
    (hops : ∀ q ∈ ops, 2 ≤ q.1 ∧ q.1 ≤ 64 ∧
      canonicalValue (fieldDefinition q.1) q.2 = true) :
    ∃ parsed, ISO8583Message.fromBytes m.toBytes = .ok parsed ∧
      parsed.mti = m.mti ∧ ∀ f, parsed.getField f = m.getField f := by
  obtain ⟨hinv, hmti⟩ := buildMessage_inv mti ops hops
  rw [← hm] at hinv hmti
  obtain ⟨hsec, hter, hplen, hpb, hbits, hnd, hvals⟩ := hinv
  have hver2 : m.mti.version ≤ 9 := by
    rw [hmti]
    exact hver
  rcases hB : m.bitmap with ⟨p, s2, t2⟩
  rw [hB] at hsec hter hplen hpb hbits
  simp only [] at hsec hter hplen hpb
  subst hsec
  subst hter
  have hksmem : ∀ k ∈ mapKeys m.fields, 2 ≤ k ∧ k ≤ 64 ∧
      canonicalValue (fieldDefinition k) ((mapGet m.fields k).getD (.str [])) = true := by
    intro k hk
    have hsome := (mapGet_isSome_iff_mem_keys m.fields k).mpr hk
    obtain ⟨w, hw⟩ := Option.isSome_iff_exists.mp hsome
    obtain ⟨h2, h64, hcw⟩ := hvals k w hw
    refine ⟨h2, h64, ?_⟩
    rw [hw]
    exact hcw
  have hsortmem : ∀ k, (k ∈ (mapKeys m.fields).insertionSort (fun a b => a ≤ b)) ↔
      k ∈ mapKeys m.fields :=
    fun k => (List.perm_insertionSort (fun a b => a ≤ b) (mapKeys m.fields)).mem_iff
  have hks2 : ∀ k ∈ (mapKeys m.fields).insertionSort (fun a b => a ≤ b),
      2 ≤ k ∧ k ≤ 64 ∧ canonicalValue (fieldDefinition k)
        ((mapGet m.fields k).getD (.str [])) = true :=
    fun k hk => hksmem k ((hsortmem k).mp hk)
  have hgsf : Bitmap.getSetFields ⟨p, none, none⟩ =
      (mapKeys m.fields).insertionSort (fun a b => a ≤ b) :=
    getSetFields_eq_sorted_keys p m.fields hbits hnd
      (fun k w hw => ⟨(hvals k w hw).1, (hvals k w hw).2.1⟩)
  have hmtilen : m.mti.toBytes.length = 4 := by
    simp [MessageType.toBytes_digits m.mti hver2]
  have hfilter : ((mapKeys m.fields).insertionSort (fun a b => a ≤ b)).filter
      (fun k => !(k == 1 || k == 65)) =
      (mapKeys m.fields).insertionSort (fun a b => a ≤ b) := by
    rw [List.filter_eq_self]
    intro a ha
    obtain ⟨h2, h64, _⟩ := hksmem a ((hsortmem a).mp ha)
    have h1 : a ≠ 1 := by omega
    have h65 : a ≠ 65 := by omega
    simp [h1, h65]
  have hbytes : m.toBytes = m.mti.toBytes ++ (p ++
      ((mapKeys m.fields).insertionSort (fun a b => a ≤ b)).flatMap
        (fun k => generateField (fieldDefinition k)
          ((mapGet m.fields k).getD (.str [])))) := by
    have hdata : ((mapKeys m.fields).insertionSort (fun a b => a ≤ b)).flatMap
        (fun k => match mapGet m.fields k with
          | some v => generateField (fieldDefinition k) v
          | none => []) =
        ((mapKeys m.fields).insertionSort (fun a b => a ≤ b)).flatMap
          (fun k => generateField (fieldDefinition k)
            ((mapGet m.fields k).getD (.str []))) := by
      apply flatMap_congr_mem
      intro a ha
      have hsome := (mapGet_isSome_iff_mem_keys m.fields a).mpr ((hsortmem a).mp ha)
      obtain ⟨w, hw⟩ := Option.isSome_iff_exists.mp hsome
      show (match mapGet m.fields a with
        | some v => generateField (fieldDefinition a) v
        | none => []) =
        generateField (fieldDefinition a) ((mapGet m.fields a).getD (.str []))
      rw [hw]
      rfl
    unfold ISO8583Message.toBytes
    rw [hB, hfilter, hdata]
    simp [Bitmap.toBytes, List.append_assoc]
  generalize hD : ((mapKeys m.fields).insertionSort (fun a b => a ≤ b)).flatMap
      (fun k => generateField (fieldDefinition k)
        ((mapGet m.fields k).getD (.str []))) = data at hbytes
  refine ⟨⟨m.mti, ((mapKeys m.fields).insertionSort (fun a b => a ≤ b)).foldl
      (fun a k => mapInsert a k ((mapGet m.fields k).getD (.str []))) [],
      ⟨p, none, none⟩⟩, ?_, rfl, ?_⟩
  · rw [hbytes]
    have hlen12 : (m.mti.toBytes ++ (p ++ data)).length = 12 + data.length := by
      simp only [List.length_append, hmtilen, hplen]
      omega
    unfold ISO8583Message.fromBytes
    rw [if_neg (by omega)]
    have hs1 : slice (m.mti.toBytes ++ (p ++ data)) 0 4 = .ok m.mti.toBytes := by
      rw [← hmtilen]
      exact slice_append_front _ _
    rw [hs1]
    simp only []
    rw [MessageType.fromBytes_toBytes m.mti hver2]
    simp only []
    have hs2 : slice (m.mti.toBytes ++ (p ++ data)) 4 12 = .ok p := by
      have h4 : (4:Nat) = m.mti.toBytes.length := hmtilen.symm
      have h12 : (12:Nat) = m.mti.toBytes.length + p.length := by omega
      rw [h4, h12]
      exact slice_append_mid _ _ _
    rw [hs2]
    simp only []
    have hhex : Bitmap.fromHex (hexEncode p) = .ok ⟨p, none, none⟩ := by
      unfold Bitmap.fromHex
      rw [hexDecode_hexEncode p hpb]
      simp only []
      unfold Bitmap.fromBytes
      rw [if_neg (by omega)]
      have htk : p.take 8 = p := by
        rw [← hplen]
        exact List.take_length p
      simp only []
      rw [htk, if_neg (fun hcon => absurd hcon.2 (by omega))]
    rw [hhex]
    simp only []
    have h1false : Bitmap.isSet ⟨p, none, none⟩ 1 = false := by
      rw [hbits 1]
      cases hmg : mapGet m.fields 1 with
      | none => rfl
      | some w => exact absurd (hvals 1 w hmg).1 (by omega)
    rw [if_neg (by simp [h1false])]
    simp only []
    rw [hgsf]
    have hdrop12 : (m.mti.toBytes ++ (p ++ data)).drop 12 = data := by
      have h12b : (12:Nat) = (m.mti.toBytes ++ p).length := by
        simp [List.length_append, hmtilen, hplen]
      rw [h12b, ← List.append_assoc, List.drop_left]
    rw [parseFieldsLoop_canonical (m.mti.toBytes ++ (p ++ data))
      (fun g => (mapGet m.fields g).getD (.str []))
      ((mapKeys m.fields).insertionSort (fun a b => a ≤ b)) 12 [] hks2
      (by rw [hdrop12]; exact hD.symm) (by omega)]
  · intro f
    simp only [ISO8583Message.getField]
    rw [mapGet_foldl_insert]
    by_cases hf : f ∈ (mapKeys m.fields).insertionSort (fun a b => a ≤ b)
    · rw [if_pos hf]
      have hsome := (mapGet_isSome_iff_mem_keys m.fields f).mpr ((hsortmem f).mp hf)
      obtain ⟨w, hw⟩ := Option.isSome_iff_exists.mp hsome
      rw [hw]
      rfl
    · rw [if_neg hf]
      have hnone : mapGet m.fields f = none := by
        cases hmg : mapGet m.fields f with
        | none => rfl
        | some w =>
          exact absurd ((mapGet_isSome_iff_mem_keys m.fields f).mp (by rw [hmg]; rfl))
            (fun hmem => hf ((hsortmem f).mpr hmem))
      rw [hnone]
      rfl

/-- Builder operations of the first C1 counterexample message: the common
required fields plus field 70 (secondary-bitmap range). -/
def c1opsA : List (Nat × FieldValue) :=
  [(3, .str [48, 48, 48, 48, 48, 48]), (11, .str [48, 48, 48, 48, 48, 49]),
   (12, .str [49, 50, 48, 48, 48, 48]), (13, .str [48, 49, 48, 49]),
   (70, .str [48, 48, 49])]

/-- Builder operations of the second C1 counterexample message: a
one-character ProcessingCode for the fixed-width six-digit field 3. -/
def c1opsB : List (Nat × FieldValue) :=
  [(3, .str [49]), (11, .str [48, 48, 48, 48, 48, 49]),
   (12, .str [49, 50, 48, 48, 48, 48]), (13, .str [48, 49, 48, 49])]

/-- First C1 counterexample message (network management request 0800). -/
def c1msgA : ISO8583Message :=
  buildMessage ⟨0, .NetworkManagement, .Request, .Acquirer⟩ c1opsA

/-- Second C1 counterexample message (network management request 0800). -/
def c1msgB : ISO8583Message :=
  buildMessage ⟨0, .NetworkManagement, .Request, .Acquirer⟩ c1opsB

/-- Builder operations of the C1 witness message: the specification
authorization scenario with canonical fields 2, 3, 4, 11, 12, 13. -/
def c1opsW : List (Nat × FieldValue) :=
  [(2, .str [52, 53, 51, 50, 48, 49, 53, 49, 49, 50, 56, 51, 48, 51, 54, 54]),
   (3, .str [48, 48, 48, 48, 48, 48]),
   (4, .str [48, 48, 48, 48, 48, 48, 48, 49, 48, 48, 48, 48]),
   (11, .str [48, 48, 48, 48, 48, 49]), (12, .str [49, 50, 48, 48, 48, 48]),
   (13, .str [48, 49, 48, 49])]

set_option maxRecDepth 8192 in
/-- C1 counterexample: two messages successfully produced by the builder
whose round-trip does not yield the same (field, value) pairs.  The first
contains field 70 with value "001": `build()` succeeds and the field is
stored, but `from_bytes(to_bytes(..))` succeeds with field 70 absent (the
secondary-bitmap merge loop of `from_bytes` never fires).  The second
stores ProcessingCode "1": the round-trip succeeds but returns the field
zero-padded to "000001". -/
theorem C1_round_trip_counterexample :
    MessageBuilder.build c1msgA = .ok c1msgA ∧
    c1msgA.getField 70 = some (.str [48, 48, 49]) ∧
    (∃ parsed, ISO8583Message.fromBytes c1msgA.toBytes = .ok parsed ∧
      parsed.getField 70 = none) ∧
    MessageBuilder.build c1msgB = .ok c1msgB ∧
    c1msgB.getField 3 = some (.str [49]) ∧
    (∃ parsed, ISO8583Message.fromBytes c1msgB.toBytes = .ok parsed ∧
      parsed.getField 3 = some (.str [48, 48, 48, 48, 48, 49])) := by
  refine ⟨rfl, rfl, ⟨_, rfl, rfl⟩, rfl, rfl, ⟨_, rfl, rfl⟩⟩

set_option maxRecDepth 8192 in
/-- C1 witness: the authorization-request scenario (canonical fields 2, 3,
4, 11, 12, 13, MTI 0100) satisfies the amended hypotheses and round-trips
with the same MTI and field map. -/
theorem C1_round_trip_witness :
    ∃ parsed, ISO8583Message.fromBytes
        (buildMessage ⟨0, .Authorization, .Request, .Acquirer⟩ c1opsW).toBytes =
          .ok parsed ∧
      parsed.mti = (buildMessage ⟨0, .Authorization, .Request, .Acquirer⟩ c1opsW).mti ∧
      ∀ f, parsed.getField f =
        (buildMessage ⟨0, .Authorization, .Request, .Acquirer⟩ c1opsW).getField f :=
  C1_round_trip ⟨0, .Authorization, .Request, .Acquirer⟩ c1opsW _ rfl
    ⟨buildMessage ⟨0, .Authorization, .Request, .Acquirer⟩ c1opsW, rfl⟩
    (by decide) (by decide)

set_option maxRecDepth 4096 in
/-- C3: the claim that for every field number n in [2,128] excluding 65 the
definition consulted by the message codec (`Field::definition` /
`FieldDefinition::get`) agrees with `Iso1987::get_field(n)` in data type,
length-encoding kind and (maximum) length, and carries field number n, is
false on the code: at n = 28 the codec table says Fixed(8) while the
ISO 8583:1987 table says Fixed(9); at n = 56 the positional lookup is
misaligned (the vector skips fields 56-63) and returns the definition
carrying field number 64 (Binary, Fixed 8) instead of one for 56; and
`FieldDefinition::get(121)` indexes past the 121-entry vector and panics. -/
theorem C3_field_table_diverges_from_spec_table :
    (fieldDefinition 28).length = FieldLength.Fixed 8 ∧
    Iso1987.getField 28 = some ⟨.Numeric, .Fixed, 9⟩ ∧
    fieldDefinition 56 = ⟨64, .Binary, .Fixed 8⟩ ∧
    Iso1987.getField 56 = some ⟨.AlphanumericSpecial, .Lllvar, 999⟩ ∧
    FieldDefinition.getByNumber 121 = .error .panicked :=
  ⟨rfl, rfl, rfl, rfl, rfl⟩

end Iso8583
